import Mathlib

/-!
Verification development for the Timer & Session-Log Engine of the
pomokanban Obsidian plugin (`src/TimerManager.ts`).

The TypeScript `TimerManager` class is shallowly embedded below:
* mutable fields of the class become fields of the `TimerManager` structure,
  and each method becomes a pure function `TimerManager → ... → TimerManager × List Event`
  (the emitted `EventEmitter` events / `Notice` toasts / modal openings are
  returned as an explicit event list, in emission order);
* `Date.now()` is passed in as an explicit `now : Nat` argument (milliseconds
  since the Unix epoch; all timestamps produced by `Date.now()` are
  non-negative, so `Nat` is used);
* the Obsidian board trees reachable through `plugin.stateManagers` are
  embedded as `m.boards : List Board` (the `Map` iteration order becomes list
  order), and the plugin-level settings object as `m.settings`;
* `moment` date formatting/parsing is embedded by an explicit Gregorian
  calendar computation, with the local timezone fixed at offset 0 (a uniform
  offset shifts all timestamps equally and is irrelevant to the properties
  proved here); the model is exact for dates from 1970 onward, which covers
  every value `Date.now()` can produce;
* `setTimeout` callbacks (the auto-round delayed starts) are asynchronous and
  are not part of the synchronous transition being modelled; where a method
  schedules one, a comment marks it.
-/

/-- Timer mode, `TimerMode` in the source (`'stopwatch' | 'pomodoro' | 'break'`).
`break` is a Lean keyword, so the third constructor is named `brk`. -/
inductive TimerMode where
  | stopwatch
  | pomodoro
  | brk
deriving DecidableEq, Repr

/-- The `TimerState` interface from the source. -/
structure TimerState where
  running : Bool
  mode : TimerMode
  start : Nat
  elapsed : Nat
  targetCardId : Option String
deriving DecidableEq, Repr

/-- The `FocusSession` interface from the source.  `end` is a Lean keyword, so
that field is named `endMs`. -/
structure FocusSession where
  cardId : Option String
  cardTitle : Option String
  mode : TimerMode
  start : Nat
  endMs : Nat
  duration : Nat
deriving DecidableEq, Repr

/-- Events observable from one synchronous method run: `emitter.emit(...)`
events (`tick`, `start`, `stop`, `change`, `log`), `new Notice(...)` toasts
(`notice`), `playEndSound()` (`sound`) and the opening of the
`StopReasonModal` (`modal`). -/
inductive Event where
  | tick
  | start
  | stop
  | change
  | log
  | notice
  | sound
  | modal
deriving DecidableEq, Repr

/-! A card tree node: a card `id`, its display `title` (`it.data.title`,
the first line of `titleRaw`), the remaining lines of its raw markdown body
(`it.data.titleRaw.split('\n').slice(1)`), and nested child cards.
`CardForest` is the list of children (a mutual inductive so that all
recursions over the tree are structural). -/
mutual
inductive CardTree where
  | node (id : String) (title : String) (bodyLines : List String) (children : CardForest) : CardTree
inductive CardForest where
  | nil : CardForest
  | cons (t : CardTree) (ts : CardForest) : CardForest
end

/-- Board-local timer settings (`sm.getSetting(key)` for the five timer keys).
A `none` models an absent or non-numeric (`NaN`) setting; fractional minute
values do not occur in the settings UI, so values are embedded as `Int`. -/
structure BoardSettings where
  pomodoro : Option Int
  shortBreak : Option Int
  longBreak : Option Int
  longBreakInterval : Option Int
  autoRounds : Option Int
deriving DecidableEq, Repr

/-- One board (`sm.state`): its lanes, plus the board-local settings layer. -/
structure Lane where
  id : String
  children : CardForest

/-- A board: `board.children` is the lane list. -/
structure Board where
  settings : BoardSettings
  lanes : List Lane

/-- The plugin-global settings object (`plugin.settings`), restricted to the
five timer keys the `TimerManager` reads. -/
structure GlobalSettings where
  pomodoro : Option Int
  shortBreak : Option Int
  longBreak : Option Int
  longBreakInterval : Option Int
  autoRounds : Option Int
deriving DecidableEq, Repr

/-- The `TimerManager` class state: every mutable field of the class, plus the
board registry (`plugin.stateManagers`, in `Map` iteration order) and the
global settings object it reads through `this.plugin`. -/
structure TimerManager where
  state : TimerState
  logs : List FocusSession
  currentSessionStart : Nat
  markdownParsed : Bool
  lastParsedSmCount : Nat
  pomodoroDefault : Nat
  breakDurationMs : Nat
  pomodoroCount : Nat
  shortBreakMs : Nat
  longBreakMs : Nat
  longBreakInterval : Int
  autoRounds : Int
  lastWorkMode : TimerMode
  lastWorkCardId : Option String
  currentAutoRound : Nat
  boards : List Board
  settings : GlobalSettings

/-- JS truthiness of an optional string (`!cardId` is true for `undefined`
and for the empty string). -/
def strFalsy (o : Option String) : Bool :=
  match o with
  | none => true
  | some s => s = ""

/-! ### Gregorian calendar arithmetic (the embedding of `moment`)

`moment(ms).format('YYYY-MM-DD')` / `format('HH:mm')` and
`moment('YYYY-MM-DD HH:mm').valueOf()` are embedded through an explicit
days-since-epoch ↔ calendar-date conversion.  All recursions are fuel-based
or structural so that every function reduces inside the kernel. -/

/-- Gregorian leap-year test. -/
def isLeap (y : Nat) : Bool :=
  (y % 4 == 0 && y % 100 != 0) || y % 400 == 0

/-- Number of days in year `y`. -/
def daysInYear (y : Nat) : Nat :=
  if isLeap y then 366 else 365

/-- Number of days in month `m` (1-based) of year `y`. -/
def daysInMonth (y m : Nat) : Nat :=
  if m = 2 then (if isLeap y then 29 else 28)
  else if m = 4 ∨ m = 6 ∨ m = 9 ∨ m = 11 then 30
  else 31

/-- Days contributed by `k` consecutive years starting at year `y0`. -/
def daysOfYearRange (y0 : Nat) : Nat → Nat
  | 0 => 0
  | k + 1 => daysInYear y0 + daysOfYearRange (y0 + 1) k

/-- Days contributed by `k` consecutive months of year `y` starting at month `m0`. -/
def daysOfMonthRange (y m0 : Nat) : Nat → Nat
  | 0 => 0
  | k + 1 => daysInMonth y m0 + daysOfMonthRange y (m0 + 1) k

/-- Days from 1970-01-01 to the start of year `y` (0 for years before 1970;
the model is only used for dates from 1970 onward). -/
def daysBeforeYear (y : Nat) : Nat :=
  daysOfYearRange 1970 (y - 1970)

/-- Days from the start of year `y` to the start of its month `m` (1-based). -/
def daysBeforeMonth (y m : Nat) : Nat :=
  daysOfMonthRange y 1 (m - 1)

/-- Days since 1970-01-01 of the calendar date `y-m-d`. -/
def daysOfCivil (y m d : Nat) : Nat :=
  daysBeforeYear y + daysBeforeMonth y m + (d - 1)

/-- Fuel-driven year extraction: peel whole years off a day count. -/
def yearOfDaysAux : Nat → Nat → Nat → Nat × Nat
  | 0, y, n => (y, n)
  | fuel + 1, y, n =>
    if daysInYear y ≤ n then yearOfDaysAux fuel (y + 1) (n - daysInYear y) else (y, n)

/-- Year and day-of-year of day number `n` (days since 1970-01-01). -/
def yearOfDays (n : Nat) : Nat × Nat :=
  yearOfDaysAux (n + 1) 1970 n

/-- Fuel-driven month extraction: peel whole months off a day-of-year. -/
def monthOfDoyAux (y : Nat) : Nat → Nat → Nat → Nat × Nat
  | 0, m, doy => (m, doy)
  | fuel + 1, m, doy =>
    if 12 ≤ m then (m, doy)
    else if daysInMonth y m ≤ doy then monthOfDoyAux y fuel (m + 1) (doy - daysInMonth y m)
    else (m, doy)

/-- Month (1-based) and day-of-month (0-based) of day-of-year `doy` in year `y`. -/
def monthOfDoy (y doy : Nat) : Nat × Nat :=
  monthOfDoyAux y 12 1 doy

/-- Calendar date `(y, m, d)` (1-based month and day) of day number `n`. -/
def civilOfDays (n : Nat) : Nat × Nat × Nat :=
  let p := yearOfDays n
  let q := monthOfDoy p.1 p.2
  (p.1, q.1, q.2 + 1)

/-- The timestamp `moment(dateStr + ' ' + timeStr, 'YYYY-MM-DD HH:mm').valueOf()`
for a calendar date and time (timezone fixed at offset 0). -/
def momentValueOf (y mo d h mi : Nat) : Nat :=
  daysOfCivil y mo d * 86400000 + h * 3600000 + mi * 60000

/-- Validity of a parsed calendar date-time, `moment(..., 'YYYY-MM-DD HH:mm').isValid()`:
in-range month and day-of-month, minutes below 60 and hours below 24 (with
moment's documented special case accepting `24:00` as midnight of the next
day). -/
def momentValid (y mo d h mi : Nat) : Bool :=
  1 ≤ mo && mo ≤ 12 && 1 ≤ d && d ≤ daysInMonth y mo &&
    ((h ≤ 23 && mi ≤ 59) || (h == 24 && mi == 0))

/-! ### Decimal formatting (the embedding of `moment.format` fields and JS
number-to-string interpolation) -/

/-- The decimal digit character for `k % 10`. -/
def digitChar (k : Nat) : Char :=
  match k % 10 with
  | 0 => '0' | 1 => '1' | 2 => '2' | 3 => '3' | 4 => '4'
  | 5 => '5' | 6 => '6' | 7 => '7' | 8 => '8' | _ => '9'

/-- Two-digit zero-padded decimal, the `HH`, `mm`, `MM`, `DD` moment format
fields (exact for values below 100, which is all the call sites produce). -/
def pad2 (n : Nat) : List Char :=
  [digitChar (n / 10), digitChar n]

/-- Four-digit zero-padded decimal, the `YYYY` moment format field (exact for
years below 10000). -/
def pad4 (n : Nat) : List Char :=
  [digitChar (n / 1000), digitChar (n / 100), digitChar (n / 10), digitChar n]

/-- Fuel-driven decimal digits of a natural number (most significant first). -/
def decDigitsAux : Nat → Nat → List Char
  | 0, _ => []
  | fuel + 1, n => if n < 10 then [digitChar n] else decDigitsAux fuel (n / 10) ++ [digitChar n]

/-- Decimal digit string of `n`, the JS `${n}` interpolation for a
non-negative integer. -/
def decDigits (n : Nat) : List Char :=
  decDigitsAux (n + 1) n

/-- The log line written by `appendSessionToMarkdown`:
`++ YYYY-MM-DD HH:mm – HH:mm (N m)` with `N = Math.round(duration / 60000)`
(for non-negative `x`, `Math.round (x / 60000) = (x + 30000) / 60000` in
integer arithmetic).  The separator is the en dash U+2013, as in the source. -/
def formatSessionLine (start endv duration : Nat) : String :=
  let day := start / 86400000
  let c := civilOfDays day
  String.mk
    ('+' :: '+' :: ' ' ::
      (pad4 c.1 ++ '-' :: pad2 c.2.1 ++ '-' :: pad2 c.2.2 ++
       ' ' :: pad2 (start % 86400000 / 3600000) ++ ':' :: pad2 (start % 3600000 / 60000) ++
       ' ' :: '–' :: ' ' ::
       pad2 (endv % 86400000 / 3600000) ++ ':' :: pad2 (endv % 3600000 / 60000) ++
       ' ' :: '(' :: (decDigits ((duration + 30000) / 60000) ++ [' ', 'm', ')'])))

/-! ### The log-line grammar (the embedding of the `lineRegex` match)

```
/^(?:[-*]\s+)?(?:\+\+|🍅|⏱)\s+(\d{4}-\d{2}-\d{2})\s+(\d{2}:\d{2})\s*[–—-]\s*(\d{2}:\d{2})\s+\((\d+)\s+m/
```
applied to `ln.trim()`.  The regex is anchored at the start only; trailing
text is ignored.  Because the optional bullet group is followed by a marker
that is never `-` or `*`, and every `\s+`/`\s*`/`\d+` is followed by a
character outside its class, the regex is deterministic and is embedded as a
straight-line functional parser over the character list. -/

/-- The tomato emoji U+1F345 used as a pomodoro marker. -/
def tomatoChar : Char := Char.ofNat 0x1F345

/-- The stopwatch emoji U+23F1 accepted as an alternative marker. -/
def clockChar : Char := Char.ofNat 0x23F1

/-- JS whitespace (`\s` in a JS regex, and the set removed by `String.trim`):
space, tab, LF, VT, FF, CR, NBSP, and the Unicode space separators. -/
def jsWs (c : Char) : Bool :=
  c.toNat = 32 || (9 ≤ c.toNat && c.toNat ≤ 13) || c.toNat = 0xa0 || c.toNat = 0x1680 ||
    (0x2000 ≤ c.toNat && c.toNat ≤ 0x200a) || c.toNat = 0x2028 || c.toNat = 0x2029 ||
    c.toNat = 0x202f || c.toNat = 0x205f || c.toNat = 0x3000 || c.toNat = 0xfeff

/-- JS `String.prototype.trim` on a character list. -/
def jsTrim (cs : List Char) : List Char :=
  ((cs.dropWhile jsWs).reverse.dropWhile jsWs).reverse

/-- Decimal digit test (`\d`). -/
def isDigitCh (c : Char) : Bool :=
  48 ≤ c.toNat && c.toNat ≤ 57

/-- Value of a decimal digit character. -/
def digitVal (c : Char) : Nat :=
  c.toNat - 48

/-- Numeric value of a digit list, `parseInt(s, 10)` on a `\d+` match. -/
def readNat (ds : List Char) : Nat :=
  ds.foldl (fun a c => a * 10 + digitVal c) 0

/-- Consume one mandatory whitespace then any further whitespace (`\s+`). -/
def ws1 (cs : List Char) : Option (List Char) :=
  match cs with
  | c :: rest => if jsWs c then some (rest.dropWhile jsWs) else none
  | [] => none

/-- Consume the optional list bullet (`(?:[-*]\s+)?`).  If the line starts
with `-` or `*` the mandatory whitespace must follow, since no marker starts
with `-` or `*`. -/
def skipBullet (cs : List Char) : Option (List Char) :=
  match cs with
  | c :: rest => if c = '-' ∨ c = '*' then ws1 rest else some (c :: rest)
  | [] => some []

/-- Consume the session marker (`(?:\+\+|🍅|⏱)`). -/
def skipMarker (cs : List Char) : Option (List Char) :=
  match cs with
  | '+' :: '+' :: rest => some rest
  | c :: rest => if c = tomatoChar ∨ c = clockChar then some rest else none
  | [] => none

/-- Read exactly `k` decimal digits, returning their value. -/
def readDigits : Nat → List Char → Option (Nat × List Char)
  | 0, cs => some (0, cs)
  | k + 1, cs =>
    match cs with
    | c :: rest =>
      if isDigitCh c then
        (readDigits k rest).map (fun p => (digitVal c * 10 ^ k + p.1, p.2))
      else none
    | [] => none

/-- Consume one expected literal character. -/
def expectCh (x : Char) (cs : List Char) : Option (List Char) :=
  match cs with
  | c :: rest => if c = x then some rest else none
  | [] => none

/-- Consume `\s*` then one dash (`[–—-]`, en dash, em dash or hyphen) then `\s*`. -/
def skipDash (cs : List Char) : Option (List Char) :=
  match cs.dropWhile jsWs with
  | c :: rest =>
    if c = '–' ∨ c = '—' ∨ c = '-' then some (rest.dropWhile jsWs) else none
  | [] => none

/-- The capture groups of a successful `lineRegex` match: date, start time,
end time and the stated minute count. -/
structure ParsedLine where
  y : Nat
  mo : Nat
  d : Nat
  h1 : Nat
  mi1 : Nat
  h2 : Nat
  mi2 : Nat
  mins : Nat
deriving DecidableEq, Repr

/-- Match the date group `(\d{4}-\d{2}-\d{2})`. -/
def parseYmd (cs : List Char) : Option (Nat × Nat × Nat × List Char) :=
  match readDigits 4 cs with
  | none => none
  | some (y, cs) =>
    match expectCh '-' cs with
    | none => none
    | some cs =>
      match readDigits 2 cs with
      | none => none
      | some (mo, cs) =>
        match expectCh '-' cs with
        | none => none
        | some cs =>
          match readDigits 2 cs with
          | none => none
          | some (d, cs) => some (y, mo, d, cs)

/-- Match a time group `(\d{2}:\d{2})`. -/
def parseHm (cs : List Char) : Option (Nat × Nat × List Char) :=
  match readDigits 2 cs with
  | none => none
  | some (h, cs) =>
    match expectCh ':' cs with
    | none => none
    | some cs =>
      match readDigits 2 cs with
      | none => none
      | some (mi, cs) => some (h, mi, cs)

/-- Match the duration tail `\((\d+)\s+m` (the rest of the line is ignored,
the regex being anchored only at the start). -/
def parseMins (cs : List Char) : Option Nat :=
  match expectCh '(' cs with
  | none => none
  | some cs =>
    let ds := cs.takeWhile isDigitCh
    if ds.isEmpty then none
    else
      match ws1 (cs.dropWhile isDigitCh) with
      | none => none
      | some cs2 =>
        match expectCh 'm' cs2 with
        | none => none
        | some _ => some (readNat ds)

/-- Match the log-line regex against a (trimmed) line. -/
def parseLogLine (cs : List Char) : Option ParsedLine :=
  match skipBullet cs with
  | none => none
  | some cs =>
  match skipMarker cs with
  | none => none
  | some cs =>
  match ws1 cs with
  | none => none
  | some cs =>
  match parseYmd cs with
  | none => none
  | some (y, mo, d, cs) =>
  match ws1 cs with
  | none => none
  | some cs =>
  match parseHm cs with
  | none => none
  | some (h1, mi1, cs) =>
  match skipDash cs with
  | none => none
  | some cs =>
  match parseHm cs with
  | none => none
  | some (h2, mi2, cs) =>
  match ws1 cs with
  | none => none
  | some cs =>
  match parseMins cs with
  | none => none
  | some mins => some ⟨y, mo, d, h1, mi1, h2, mi2, mins⟩

/-- Whether the raw line contains the tomato emoji (`ln.includes('🍅')`),
which decides the recovered mode. -/
def containsTomato (ln : String) : Bool :=
  ln.data.contains tomatoChar

/-! ### Session-log reconstruction (`parseLogsFromMarkdown` / `extractItemLogsRecursive`) -/

/-- Process one body line of a card, the per-line body of
`extractItemLogsRecursive`: match the regex against the trimmed line, parse
both timestamps, validate them, check `duration > 0 && end > start`, and
append a `FocusSession` unless an entry with the same `(start, cardId)` pair
is already present. -/
def processLine (cid ctitle : String) (logs : List FocusSession) (ln : String) :
    List FocusSession :=
  match parseLogLine (jsTrim ln.data) with
  | none => logs
  | some r =>
    if momentValid r.y r.mo r.d r.h1 r.mi1 && momentValid r.y r.mo r.d r.h2 r.mi2 then
      let start := momentValueOf r.y r.mo r.d r.h1 r.mi1
      let endv := momentValueOf r.y r.mo r.d r.h2 r.mi2
      let duration := r.mins * 60000
      if duration > 0 && decide (endv > start) then
        if logs.any (fun l => l.start == start && l.cardId == some cid) then logs
        else
          logs ++ [{ cardId := some cid, cardTitle := some ctitle,
                     mode := if containsTomato ln then .pomodoro else .stopwatch,
                     start := start, endMs := endv, duration := duration }]
      else logs
    else logs

/-! The recursive walk of `extractItemLogsRecursive`: for each item, process
its body lines in order, then recurse into its children, then continue with
the next sibling. -/
mutual
def extractTree (logs : List FocusSession) : CardTree → List FocusSession
  | .node cid ctitle bodyLines children =>
    extractForest (bodyLines.foldl (processLine cid ctitle) logs) children
def extractForest (logs : List FocusSession) : CardForest → List FocusSession
  | .nil => logs
  | .cons t ts => extractForest (extractTree logs t) ts
end

/-- The walk of `parseLogsFromMarkdown`: every lane of every board, in
registry order. -/
def parseLogsOfBoards (logs : List FocusSession) (boards : List Board) : List FocusSession :=
  boards.foldl (fun acc b => b.lanes.foldl (fun acc2 l => extractForest acc2 l.children) acc) logs

/-- The method `ensureMarkdownLogs`: lazily rebuild the log list from all
boards when never parsed or when the number of boards changed; the list is
cleared before re-parsing. -/
def ensureMarkdownLogs (m : TimerManager) : TimerManager :=
  if ¬m.markdownParsed ∨ m.boards.length ≠ m.lastParsedSmCount then
    { m with logs := parseLogsOfBoards [] m.boards,
             markdownParsed := true,
             lastParsedSmCount := m.boards.length }
  else m

/-- The method `forceReparseLogs`: reset the parse flags, then re-parse. -/
def forceReparseLogs (m : TimerManager) : TimerManager :=
  ensureMarkdownLogs { m with markdownParsed := false, lastParsedSmCount := 0 }

/-- The query `getTotalFocused(cardId)`: total logged milliseconds for a card
(ensures the markdown logs are parsed first). -/
def getTotalFocused (m : TimerManager) (cardId : Option String) : TimerManager × Nat :=
  let m := ensureMarkdownLogs m
  match cardId with
  | none => (m, 0)
  | some cid =>
    (m, (m.logs.filter (fun l => l.cardId == some cid)).foldl (fun s l => s + l.duration) 0)

/-! ### Card lookup and the markdown append path -/

/-! The recursive search of `findItemInLane`: depth-first, returning the
first node whose `id` matches and whose `data.title` is truthy (non-empty). -/
mutual
def searchTree (cid : String) : CardTree → Option CardTree
  | .node i t body ch =>
    if t ≠ "" ∧ i = cid then some (.node i t body ch) else searchForest cid ch
def searchForest (cid : String) : CardForest → Option CardTree
  | .nil => none
  | .cons t ts =>
    match searchTree cid t with
    | some r => some r
    | none => searchForest cid ts
end

/-- The method `getCardTitle`: search every lane of every board for the card
and return its title. -/
def getCardTitle (boards : List Board) (cardId : Option String) : Option String :=
  match cardId with
  | none => none
  | some cid =>
    let rec overBoards : List Board → Option CardTree
      | [] => none
      | b :: rest =>
        let rec overLanes : List Lane → Option CardTree
          | [] => none
          | l :: ls =>
            match searchForest cid l.children with
            | some r => some r
            | none => overLanes ls
        match overLanes b.lanes with
        | some r => some r
        | none => overBoards rest
    match overBoards boards with
    | some (.node _ t _ _) => some t
    | none => none

/-! The item update of `appendToBoard`: every item whose `id` matches gets
the line appended to its raw body (`titleRaw + '\n' + line`, through
`sm.updateItemContent`, which replaces the card's raw content); for a matched
item the walk does not descend into its children, exactly as in the source.
`StateManager.updateItemContent` itself is not under `src/`.
Modelled from the spec: "given a card id and new raw body, produce an updated
card and request the document be persisted" — the card keeps its identity and
children and its body gains the appended line. -/
mutual
def appendTree (cid : String) (line : String) : CardTree → CardTree
  | .node i t body ch =>
    if i = cid then .node i t (body ++ [line]) ch
    else .node i t body (appendForest cid line ch)
def appendForest (cid : String) (line : String) : CardForest → CardForest
  | .nil => .nil
  | .cons t ts => .cons (appendTree cid line t) (appendForest cid line ts)
end

/-- The method `appendToBoard`, content part: rebuild every lane with the
append applied.  In the source the function returns `null` when
`newLanes === board.children`, but `Array.prototype.map` always returns a
fresh array, so the comparison never holds and the caller's `if (updated)`
test is always true; the model therefore returns the board unconditionally. -/
def appendToBoardJs (board : Board) (cid : String) (line : String) : Board :=
  { board with lanes := board.lanes.map (fun l => { l with children := appendForest cid line l.children }) }

/-- The method `appendSessionToMarkdown`: format the log line and walk the
board registry.  Because `appendToBoard` never reports "unchanged" (see
`appendToBoardJs`), the loop always updates the first board and breaks there:
boards after the first are never touched. -/
def appendSessionToMarkdown (m : TimerManager) (cardId : Option String)
    (start endv duration : Nat) : TimerManager :=
  if strFalsy cardId then m
  else
    let line := formatSessionLine start endv duration
    match cardId, m.boards with
    | some cid, b :: rest => { m with boards := appendToBoardJs b cid line :: rest }
    | _, _ => m

/-! ### Duration resolution (`updateSettings` / `resolveTimerSettingForCard` /
`applyTimerSettingsForCard`) -/

/-! Whether a board contains a node with the given id.  The source DFS walks
`board.children` (the lanes) and all nested children, so lane ids are
checked too. -/
mutual
def treeContains (cid : String) : CardTree → Bool
  | .node i _ _ ch => i == cid || forestContains cid ch
def forestContains (cid : String) : CardForest → Bool
  | .nil => false
  | .cons t ts => treeContains cid t || forestContains cid ts
end

/-- The `contains` check inside `resolveTimerSettingForCard`. -/
def boardContains (b : Board) (cid : String) : Bool :=
  b.lanes.any (fun l => l.id == cid || forestContains cid l.children)

/-- The method `resolveTimerSettingForCard`: scan boards in registry order;
the first board that contains the card and has the setting present yields its
value, otherwise the scan continues (note: a containing board without the
setting does not stop the scan). -/
def resolveTimerSettingForCard (boards : List Board) (cid : String)
    (key : BoardSettings → Option Int) : Option Int :=
  match boards with
  | [] => none
  | b :: rest =>
    if boardContains b cid then
      match key b.settings with
      | some v => some v
      | none => resolveTimerSettingForCard rest cid key
    else resolveTimerSettingForCard rest cid key

/-- The method `updateSettings`: re-read the five global settings, treating a
missing or non-numeric value (`NaN`) as absent and falling back to the
hardcoded defaults (25 min / 5 min / 15 min / interval 4 / 0 rounds).
`Number(x) || 4` maps `0` to the default; a negative value survives it. -/
def updateSettings (m : TimerManager) : TimerManager :=
  { m with
    pomodoroDefault :=
      match m.settings.pomodoro with
      | some v => if v > 0 then v.toNat * 60000 else 1500000
      | none => 1500000
    shortBreakMs :=
      match m.settings.shortBreak with
      | some v => if v > 0 then v.toNat * 60000 else 300000
      | none => 300000
    longBreakMs :=
      match m.settings.longBreak with
      | some v => if v > 0 then v.toNat * 60000 else 900000
      | none => 900000
    longBreakInterval :=
      match m.settings.longBreakInterval with
      | some v => if v = 0 then 4 else v
      | none => 4
    autoRounds :=
      match m.settings.autoRounds with
      | some v => v
      | none => 0 }

/-- The method `applyTimerSettingsForCard`: for each of the five settings,
use the board-local value when present and in range (`> 0` for the four
durations/interval, `>= 0` for auto-rounds; a JS-falsy `0` also falls
through for the first four), otherwise fall back to the global setting and
then to the hardcoded default.  A falsy card id falls back to
`updateSettings` wholesale. -/
def applyTimerSettingsForCard (m : TimerManager) (cardId : Option String) : TimerManager :=
  match cardId with
  | none => updateSettings m
  | some cid =>
    if cid = "" then updateSettings m
    else
      { m with
        pomodoroDefault :=
          match resolveTimerSettingForCard m.boards cid (fun s => s.pomodoro) with
          | some v =>
            if v ≠ 0 ∧ v > 0 then v.toNat * 60000
            else match m.settings.pomodoro with
                 | some g => if g > 0 then g.toNat * 60000 else 1500000
                 | none => 1500000
          | none =>
            match m.settings.pomodoro with
            | some g => if g > 0 then g.toNat * 60000 else 1500000
            | none => 1500000
        shortBreakMs :=
          match resolveTimerSettingForCard m.boards cid (fun s => s.shortBreak) with
          | some v =>
            if v ≠ 0 ∧ v > 0 then v.toNat * 60000
            else match m.settings.shortBreak with
                 | some g => if g > 0 then g.toNat * 60000 else 300000
                 | none => 300000
          | none =>
            match m.settings.shortBreak with
            | some g => if g > 0 then g.toNat * 60000 else 300000
            | none => 300000
        longBreakMs :=
          match resolveTimerSettingForCard m.boards cid (fun s => s.longBreak) with
          | some v =>
            if v ≠ 0 ∧ v > 0 then v.toNat * 60000
            else match m.settings.longBreak with
                 | some g => if g > 0 then g.toNat * 60000 else 900000
                 | none => 900000
          | none =>
            match m.settings.longBreak with
            | some g => if g > 0 then g.toNat * 60000 else 900000
            | none => 900000
        longBreakInterval :=
          match resolveTimerSettingForCard m.boards cid (fun s => s.longBreakInterval) with
          | some v =>
            if v ≠ 0 ∧ v > 0 then v
            else match m.settings.longBreakInterval with
                 | some g => if g = 0 then 4 else g
                 | none => 4
          | none =>
            match m.settings.longBreakInterval with
            | some g => if g = 0 then 4 else g
            | none => 4
        autoRounds :=
          match resolveTimerSettingForCard m.boards cid (fun s => s.autoRounds) with
          | some v =>
            if v ≥ 0 then v
            else match m.settings.autoRounds with
                 | some g => g
                 | none => 0
          | none =>
            match m.settings.autoRounds with
            | some g => g
            | none => 0 }

/-! ### The timer state machine -/

/-- The method `reset(mode, cardId, resetAutoRound)`: transition to idle
carrying the given mode and card, optionally zeroing the auto-round counter.
Emits `change`. -/
def reset (m : TimerManager) (mode : TimerMode) (cardId : Option String)
    (resetAutoRound : Bool) : TimerManager × List Event :=
  let m := { m with state := { running := false, mode := mode, start := 0,
                               elapsed := 0, targetCardId := cardId } }
  let m := if resetAutoRound then { m with currentAutoRound := 0 } else m
  (m, [Event.change])

/-- The method `stopTimer`: freeze the elapsed time and clear `running`.
Emits `change` (no-op when not running). -/
def stopTimer (m : TimerManager) (now : Nat) : TimerManager × List Event :=
  if ¬m.state.running then (m, [])
  else
    ({ m with state := { m.state with
         elapsed := m.state.elapsed + (now - m.state.start), running := false } },
     [Event.change])

/-- The method `resumeTimer`: resume a paused timer (the cancellation path of
the interruption-reason modal).  Emits `start` then `change` (no-op when
already running). -/
def resumeTimer (m : TimerManager) (now : Nat) : TimerManager × List Event :=
  if m.state.running then (m, [])
  else
    ({ m with state := { m.state with running := true, start := now } },
     [Event.start, Event.change])

/-- The method `start(mode, cardId)`: a notice-only no-op without a target
card, a silent no-op while running; otherwise apply board-local settings,
remember the last work mode/card for work modes, and transition to running
with `start = now` and `currentSessionStart = now`.  The source does not
touch `state.elapsed` here.  Emits `start` then `change`. -/
def start (m : TimerManager) (mode : TimerMode) (cardId : Option String) (now : Nat) :
    TimerManager × List Event :=
  if strFalsy cardId then (m, [Event.notice])
  else if m.state.running then (m, [])
  else
    let m := applyTimerSettingsForCard m cardId
    let m :=
      if mode = .pomodoro ∨ mode = .stopwatch then
        { m with lastWorkMode := mode, lastWorkCardId := cardId }
      else m
    -- the source's line `this.currentAutoRound = 0` under
    -- `mode === 'pomodoro' && currentAutoRound === 0 && autoRounds === 0`
    let m :=
      if mode = .pomodoro ∧ m.currentAutoRound = 0 ∧ m.autoRounds = 0 then
        { m with currentAutoRound := 0 }
      else m
    ({ m with
        state :=
          { m.state with
            mode := mode
            targetCardId := cardId
            running := true
            start := now }
        currentSessionStart := now },
     [Event.start, Event.change])

/-- The callback `finalizeSession` inside `stop`: push the session to the
in-memory log, append it to the owning card's markdown, emit `log`, then
reset to idle for the same mode/card (zeroing the auto-round counter only
when `autoRounds == 0`) and emit `change`. -/
def finalizeSession (m : TimerManager) (now : Nat) : TimerManager × List Event :=
  let endv := now
  let duration := endv - m.currentSessionStart
  let sess : FocusSession :=
    { cardId := m.state.targetCardId,
      cardTitle := getCardTitle m.boards m.state.targetCardId,
      mode := m.state.mode,
      start := m.currentSessionStart, endMs := endv, duration := duration }
  let m := { m with logs := m.logs ++ [sess] }
  let m := appendSessionToMarkdown m m.state.targetCardId m.currentSessionStart endv duration
  let p := reset m m.state.mode m.state.targetCardId (m.autoRounds = 0)
  (p.1, Event.log :: p.2 ++ [Event.change])

/-- The method `stop(askReason)`: no-op when not running; sessions shorter
than one minute are discarded (notice only); otherwise the timer is paused
and the session is finalized immediately (`askReason = false`) or the
interruption-reason modal is opened (`askReason = true`; its select/cancel
callbacks are `finalizeSession` and `resumeTimer`). -/
def stop (m : TimerManager) (now : Nat) (askReason : Bool) : TimerManager × List Event :=
  if ¬m.state.running then (m, [])
  else
    let runningDuration := now - m.currentSessionStart
    if runningDuration < 60000 then
      let p := stopTimer m now
      let q := reset p.1 p.1.state.mode p.1.state.targetCardId (p.1.autoRounds = 0)
      (q.1, p.2 ++ q.2 ++ [Event.change, Event.notice])
    else
      let p := stopTimer m now
      if askReason then (p.1, p.2 ++ [Event.modal])
      else
        let q := finalizeSession p.1 now
        (q.1, p.2 ++ q.2)

/-- The method `skipBreak`: no-op unless a break is running; pause the clock
and reset to idle carrying the last work mode and card, preserving the
auto-round counter unless `autoRounds == 0`.  When `autoRounds > 0` the
source additionally schedules a delayed auto-start (or delayed counter reset)
via `setTimeout`; that asynchronous callback is outside this synchronous
transition. -/
def skipBreak (m : TimerManager) (now : Nat) : TimerManager × List Event :=
  if ¬(m.state.running ∧ m.state.mode = .brk) then (m, [])
  else
    let p := stopTimer m now
    let targetMode := p.1.lastWorkMode
    let targetCardId := p.1.lastWorkCardId
    let shouldResetAutoRound := p.1.autoRounds = 0
    let q := reset p.1 targetMode targetCardId shouldResetAutoRound
    (q.1, p.2 ++ q.2 ++ [Event.change, Event.notice])

/-- The method `toggle(mode, cardId)`: start when idle; stop (with the reason
modal) when the same card — or no card — is clicked while running; switch
when a different card is clicked while running: log the elapsed span against
the previous card unconditionally (no 1-minute discard, no modal), append it
to the previous card's markdown, rebind the target card, refresh
`lastWorkCardId` for work modes, and restart the session anchor at `now`
without touching the running flag, the mode or the resolved durations. -/
def toggle (m : TimerManager) (mode : TimerMode) (cardId : Option String) (now : Nat) :
    TimerManager × List Event :=
  if m.state.running then
    if strFalsy cardId ∨ cardId = m.state.targetCardId then stop m now true
    else
      let duration := now - m.currentSessionStart
      let sess : FocusSession :=
        { cardId := m.state.targetCardId,
          cardTitle := getCardTitle m.boards m.state.targetCardId,
          mode := m.state.mode,
          start := m.currentSessionStart, endMs := now, duration := duration }
      let m1 := { m with logs := m.logs ++ [sess] }
      let m2 := appendSessionToMarkdown m1 m1.state.targetCardId m1.currentSessionStart now duration
      let m3 := { m2 with state := { m2.state with targetCardId := cardId } }
      let m4 :=
        if m3.state.mode = .pomodoro ∨ m3.state.mode = .stopwatch then
          { m3 with lastWorkCardId := cardId }
        else m3
      let m5 := { m4 with currentSessionStart := now }
      (m5, [Event.log, Event.change])
  else start m mode cardId now

/-- The method `completePomodoro` (reached from `tick` when a pomodoro hits
its target): finalize without the modal, play the end sound, bump the
pomodoro and auto-round counters, pick the long break iff the new count is a
multiple of `longBreakInterval` (JS `%` agrees with the Euclidean `%` used
here because the dividend is non-negative), and start the break on the same
card. -/
def completePomodoro (m : TimerManager) (now : Nat) : TimerManager × List Event :=
  let p := stop m now false
  let m1 := { p.1 with pomodoroCount := p.1.pomodoroCount + 1,
                       currentAutoRound := p.1.currentAutoRound + 1 }
  let isLong := ((m1.pomodoroCount : Int) % m1.longBreakInterval = 0)
  let m2 := { m1 with breakDurationMs := if isLong then m1.longBreakMs else m1.shortBreakMs }
  let q := start m2 .brk m2.state.targetCardId now
  (q.1, p.2 ++ [Event.sound] ++ q.2)

/-- The synchronous part of `checkAndStartNextRound` (after a break runs
out): with rounds remaining the next start is scheduled via `setTimeout`
(asynchronous, not part of this transition); with all rounds done the
counter is reset synchronously and a completion notice shown. -/
def checkAndStartNextRoundSync (m : TimerManager) : TimerManager × List Event :=
  if m.autoRounds > 0 ∧ (m.currentAutoRound : Int) < m.autoRounds then (m, [])
  else if m.autoRounds > 0 ∧ (m.currentAutoRound : Int) ≥ m.autoRounds then
    ({ m with currentAutoRound := 0 }, [Event.notice])
  else (m, [])

/-- The method `tick` (runs once per second): inert while not running;
otherwise emit `tick`, then auto-complete a pomodoro past its target, then
(re-reading the possibly changed mode, as the source's second `if` does)
finish a break past its target — stop without the modal, notify, play the
sound and run the auto-round continuation. -/
def tick (m : TimerManager) (now : Nat) : TimerManager × List Event :=
  if ¬m.state.running then (m, [])
  else
    let p :=
      if m.state.mode = .pomodoro ∧ m.pomodoroDefault ≤ now - m.state.start + m.state.elapsed then
        completePomodoro m now
      else (m, [])
    let q :=
      if p.1.state.mode = .brk ∧ p.1.breakDurationMs ≤ now - p.1.state.start + p.1.state.elapsed then
        let a := stop p.1 now false
        let b := checkAndStartNextRoundSync a.1
        (b.1, a.2 ++ [Event.notice, Event.sound] ++ b.2)
      else (p.1, [])
    (q.1, Event.tick :: p.2 ++ q.2)

/-- The query `isRunning(mode?, cardId?)`. -/
def isRunning (m : TimerManager) (mode : Option TimerMode) (cardId : Option String) : Bool :=
  if ¬m.state.running then false
  else if mode.isSome ∧ mode ≠ some m.state.mode then false
  else if cardId.isSome ∧ cardId ≠ m.state.targetCardId then false
  else m.state.running

/-! ### Sample concrete states (used by counterexamples and witnesses) -/

/-- Empty global settings (all five keys absent). -/
def gsNone : GlobalSettings := ⟨none, none, none, none, none⟩

/-- Empty board-local settings. -/
def bsNone : BoardSettings := ⟨none, none, none, none, none⟩

/-- A running break timer on card `A`, last work `pomodoro` on `A`,
auto-rounds disabled. -/
def mBreak : TimerManager :=
  { state := { running := true, mode := .brk, start := 100000, elapsed := 0,
               targetCardId := some "A" }
    logs := []
    currentSessionStart := 100000
    markdownParsed := false
    lastParsedSmCount := 0
    pomodoroDefault := 1500000
    breakDurationMs := 300000
    pomodoroCount := 3
    shortBreakMs := 300000
    longBreakMs := 900000
    longBreakInterval := 4
    autoRounds := 0
    lastWorkMode := .pomodoro
    lastWorkCardId := some "A"
    currentAutoRound := 2
    boards := []
    settings := gsNone }

/-- An idle manager with a non-zero frozen `elapsed` (the state left behind
when the interruption-reason modal pauses a long-enough session). -/
def mIdleElapsed : TimerManager :=
  { mBreak with
    state := { running := false, mode := .stopwatch, start := 400000,
               elapsed := 5000, targetCardId := some "A" } }

/-- A board whose single lane holds the single card `cid` (empty body). -/
def oneCardBoard (lid cid ctitle : String) : Board :=
  { settings := bsNone
    lanes := [{ id := lid, children := .cons (.node cid ctitle [] .nil) .nil }] }

/-- Two boards: card `A` lives on the second board only. -/
def twoBoards : List Board :=
  [oneCardBoard "L1" "X" "Other card", oneCardBoard "L2" "A" "Card A"]

/-- A stopwatch running on card `A` since `t = 100000`, in a registry of two
boards where `A` is on the second board. -/
def mSecondBoard : TimerManager :=
  { mBreak with
    state := { running := true, mode := .stopwatch, start := 100000,
               elapsed := 0, targetCardId := some "A" }
    boards := twoBoards }

/-- A pomodoro running on card `A` since `t = 0`, three pomodoros already
completed, interval 4 (so the next completion earns the long break). -/
def mPomo : TimerManager :=
  { mBreak with
    state := { running := true, mode := .pomodoro, start := 0, elapsed := 0,
               targetCardId := some "A" }
    currentSessionStart := 0 }

/-- Pairwise distinctness of the `(start, cardId)` duplicate-suppression key
over a session list. -/
def noDupKeys (l : List FocusSession) : Prop :=
  l.Pairwise (fun a b => ¬(a.start = b.start ∧ a.cardId = b.cardId))

/-! ### Helper lemmas: settings application touches only the five duration
fields -/

theorem updateSettings_state (m : TimerManager) : (updateSettings m).state = m.state := rfl

theorem updateSettings_logs (m : TimerManager) : (updateSettings m).logs = m.logs := rfl

theorem applyTimerSettingsForCard_state (m : TimerManager) (cardId : Option String) :
    (applyTimerSettingsForCard m cardId).state = m.state := by
  unfold applyTimerSettingsForCard
  rcases cardId with _ | cid
  · rfl
  · by_cases h : cid = "" <;> simp [h, updateSettings_state]

theorem applyTimerSettingsForCard_logs (m : TimerManager) (cardId : Option String) :
    (applyTimerSettingsForCard m cardId).logs = m.logs := by
  unfold applyTimerSettingsForCard
  rcases cardId with _ | cid
  · rfl
  · by_cases h : cid = "" <;> simp [h, updateSettings_logs]

theorem applyTimerSettingsForCard_lastWorkMode (m : TimerManager) (cardId : Option String) :
    (applyTimerSettingsForCard m cardId).lastWorkMode = m.lastWorkMode := by
  unfold applyTimerSettingsForCard
  rcases cardId with _ | cid
  · rfl
  · by_cases h : cid = "" <;> simp [h, updateSettings]

theorem applyTimerSettingsForCard_lastWorkCardId (m : TimerManager) (cardId : Option String) :
    (applyTimerSettingsForCard m cardId).lastWorkCardId = m.lastWorkCardId := by
  unfold applyTimerSettingsForCard
  rcases cardId with _ | cid
  · rfl
  · by_cases h : cid = "" <;> simp [h, updateSettings]

/-- C1 counterexample: from a running break (`mBreak`, auto-rounds disabled,
last work pomodoro on card `A`), `skipBreak()` leaves the machine NOT
running: the state is reset to idle (carrying the last work mode and card),
contradicting the claim that the machine is left `Running(lastWorkMode)`. -/
theorem skipBreak_goes_idle_counterexample :
    mBreak.state.running = true ∧ mBreak.state.mode = TimerMode.brk ∧
    mBreak.autoRounds = 0 ∧ mBreak.lastWorkMode = TimerMode.pomodoro ∧
    mBreak.lastWorkCardId = some "A" ∧
    (skipBreak mBreak 200000).1.state.running = false ∧
    (skipBreak mBreak 200000).1.state.mode = TimerMode.pomodoro ∧
    (skipBreak mBreak 200000).1.state.targetCardId = some "A" := by
  refine ⟨rfl, rfl, rfl, rfl, rfl, ?_, ?_, ?_⟩ <;> rfl

/-- C1 (amended): while a break is running, `skipBreak()` stops the clock and
resets the machine to IDLE carrying `lastWorkMode` / `lastWorkCardId` as the
next targets (`running = false`, not `Running`); it creates no `FocusSession`
and touches no document, and it preserves `currentAutoRound` unless
`autoRounds == 0` (in which case the counter is zeroed).  (When
`autoRounds > 0` a delayed `setTimeout` callback may later auto-start a
pomodoro; the synchronous transition itself ends idle.) -/
theorem skipBreak_spec (m : TimerManager) (now : Nat)
    (hrun : m.state.running = true) (hmode : m.state.mode = TimerMode.brk) :
    (skipBreak m now).1.state.running = false ∧
    (skipBreak m now).1.state.mode = m.lastWorkMode ∧
    (skipBreak m now).1.state.targetCardId = m.lastWorkCardId ∧
    (skipBreak m now).1.logs = m.logs ∧
    (skipBreak m now).1.boards = m.boards ∧
    (m.autoRounds = 0 → (skipBreak m now).1.currentAutoRound = 0) ∧
    (m.autoRounds ≠ 0 → (skipBreak m now).1.currentAutoRound = m.currentAutoRound) := by
  by_cases h : m.autoRounds = 0 <;>
    simp [skipBreak, stopTimer, reset, hrun, hmode, h]

/-- C1 witness: `skipBreak_spec` applied to the concrete running break `mBreak`. -/
theorem skipBreak_spec_witness :
    (skipBreak mBreak 200000).1.state.running = false ∧
    (skipBreak mBreak 200000).1.state.mode = mBreak.lastWorkMode ∧
    (skipBreak mBreak 200000).1.state.targetCardId = mBreak.lastWorkCardId ∧
    (skipBreak mBreak 200000).1.logs = mBreak.logs ∧
    (skipBreak mBreak 200000).1.boards = mBreak.boards ∧
    (mBreak.autoRounds = 0 → (skipBreak mBreak 200000).1.currentAutoRound = 0) ∧
    (mBreak.autoRounds ≠ 0 → (skipBreak mBreak 200000).1.currentAutoRound = mBreak.currentAutoRound) :=
  skipBreak_spec mBreak 200000 rfl rfl

/-- C3: a `stop()` call while running with `now - currentSessionStart` under
one minute appends no `FocusSession`, mutates no document, and resets the
machine to idle with the same mode and target card, zeroing
`currentAutoRound` exactly when `autoRounds == 0` (this holds for both values
of `askReason`). -/
theorem stop_discard_spec (m : TimerManager) (now : Nat) (ask : Bool)
    (hrun : m.state.running = true) (hshort : now - m.currentSessionStart < 60000) :
    (stop m now ask).1.logs = m.logs ∧
    (stop m now ask).1.boards = m.boards ∧
    (stop m now ask).1.state.running = false ∧
    (stop m now ask).1.state.mode = m.state.mode ∧
    (stop m now ask).1.state.targetCardId = m.state.targetCardId ∧
    (stop m now ask).1.state.start = 0 ∧
    (stop m now ask).1.state.elapsed = 0 ∧
    (m.autoRounds = 0 → (stop m now ask).1.currentAutoRound = 0) ∧
    (m.autoRounds ≠ 0 → (stop m now ask).1.currentAutoRound = m.currentAutoRound) := by
  by_cases h : m.autoRounds = 0 <;>
    simp [stop, stopTimer, reset, hrun, hshort, h]

/-- C3 witness: `stop_discard_spec` on a concrete 50-second stopwatch run. -/
theorem stop_discard_spec_witness :
    ({ mBreak with state := { mBreak.state with mode := TimerMode.stopwatch } }.state.running = true ∧
      150000 - { mBreak with state := { mBreak.state with mode := TimerMode.stopwatch } }.currentSessionStart < 60000) ∧
    ((stop { mBreak with state := { mBreak.state with mode := TimerMode.stopwatch } } 150000 true).1.logs =
      { mBreak with state := { mBreak.state with mode := TimerMode.stopwatch } }.logs ∧
     (stop { mBreak with state := { mBreak.state with mode := TimerMode.stopwatch } } 150000 true).1.state.running = false) := by
  refine ⟨⟨rfl, by decide⟩, ?_⟩
  have h := stop_discard_spec
    { mBreak with state := { mBreak.state with mode := TimerMode.stopwatch } }
    150000 true rfl (by decide)
  exact ⟨h.1, h.2.2.1⟩

/-- C4 counterexample: `start()` does not reset `state.elapsed`.  From the
idle state `mIdleElapsed` (reachable as the paused state left by the
interruption-reason modal, with `elapsed = 5000`), `start('pomodoro', "B")`
transitions to running but keeps `elapsed = 5000`, contradicting the claimed
`state.elapsed = 0`. -/
theorem start_stale_elapsed_counterexample :
    mIdleElapsed.state.running = false ∧
    (start mIdleElapsed TimerMode.pomodoro (some "B") 500).1.state.running = true ∧
    (start mIdleElapsed TimerMode.pomodoro (some "B") 500).1.state.elapsed = 5000 ∧
    (5000 : Nat) ≠ 0 := by
  refine ⟨rfl, ?_, ?_, by decide⟩ <;> rfl

/-- C4 (amended): `start(mode, cardId)` is a notice-only no-op when `cardId`
is absent (or empty), a silent no-op when already running, and otherwise
transitions to `Running(mode)` with `state.start = now` and
`currentSessionStart = now`, recording `lastWorkMode`/`lastWorkCardId`
exactly when the mode is pomodoro or stopwatch — but it leaves
`state.elapsed` unchanged rather than setting it to 0 (every state produced
by `reset` already has `elapsed = 0`, but the paused-by-modal state does
not). -/
theorem start_run_core (m : TimerManager) (mode : TimerMode) (cardId : Option String)
    (now : Nat) (h : strFalsy cardId = false) (hr : m.state.running = false) :
    (start m mode cardId now).1.state.running = true ∧
    (start m mode cardId now).1.state.mode = mode ∧
    (start m mode cardId now).1.state.targetCardId = cardId ∧
    (start m mode cardId now).1.state.start = now ∧
    (start m mode cardId now).1.currentSessionStart = now ∧
    (start m mode cardId now).1.state.elapsed = m.state.elapsed ∧
    (start m mode cardId now).1.logs = m.logs ∧
    ((mode = TimerMode.pomodoro ∨ mode = TimerMode.stopwatch) →
      (start m mode cardId now).1.lastWorkMode = mode ∧
      (start m mode cardId now).1.lastWorkCardId = cardId) ∧
    (mode = TimerMode.brk →
      (start m mode cardId now).1.lastWorkMode = m.lastWorkMode ∧
      (start m mode cardId now).1.lastWorkCardId = m.lastWorkCardId) ∧
    (start m mode cardId now).2 = [Event.start, Event.change] := by
  rcases mode with _ | _ | _ <;>
    (simp only [start, h, hr, Bool.false_eq_true, if_false, if_true]
     split_ifs <;>
       simp_all [applyTimerSettingsForCard_state, applyTimerSettingsForCard_logs,
         applyTimerSettingsForCard_lastWorkMode, applyTimerSettingsForCard_lastWorkCardId])

theorem start_spec (m : TimerManager) (mode : TimerMode) (cardId : Option String) (now : Nat) :
    (strFalsy cardId = true → start m mode cardId now = (m, [Event.notice])) ∧
    (strFalsy cardId = false → m.state.running = true → start m mode cardId now = (m, [])) ∧
    (strFalsy cardId = false → m.state.running = false →
      (start m mode cardId now).1.state.running = true ∧
      (start m mode cardId now).1.state.mode = mode ∧
      (start m mode cardId now).1.state.targetCardId = cardId ∧
      (start m mode cardId now).1.state.start = now ∧
      (start m mode cardId now).1.currentSessionStart = now ∧
      (start m mode cardId now).1.state.elapsed = m.state.elapsed ∧
      (start m mode cardId now).1.logs = m.logs ∧
      ((mode = TimerMode.pomodoro ∨ mode = TimerMode.stopwatch) →
        (start m mode cardId now).1.lastWorkMode = mode ∧
        (start m mode cardId now).1.lastWorkCardId = cardId) ∧
      (mode = TimerMode.brk →
        (start m mode cardId now).1.lastWorkMode = m.lastWorkMode ∧
        (start m mode cardId now).1.lastWorkCardId = m.lastWorkCardId) ∧
      (start m mode cardId now).2 = [Event.start, Event.change]) := by
  refine ⟨?_, ?_, ?_⟩
  · intro h; simp [start, h]
  · intro h hr; simp [start, h, hr]
  · intro h hr
    exact start_run_core m mode cardId now h hr

/-- C4 witness: `start_spec` at the concrete idle state `mIdleElapsed`. -/
theorem start_spec_witness :
    (strFalsy (some "B") = false ∧ mIdleElapsed.state.running = false) ∧
    ((start mIdleElapsed TimerMode.pomodoro (some "B") 500).1.state.running = true ∧
     (start mIdleElapsed TimerMode.pomodoro (some "B") 500).1.state.elapsed = mIdleElapsed.state.elapsed ∧
     (start mIdleElapsed TimerMode.pomodoro (some "B") 500).1.currentSessionStart = 500) := by
  refine ⟨⟨rfl, rfl⟩, ?_⟩
  have h := (start_spec mIdleElapsed TimerMode.pomodoro (some "B") 500).2.2 rfl rfl
  exact ⟨h.1, h.2.2.2.2.2.1, h.2.2.2.2.1⟩

/-! ### Helper lemmas: no nested call of `tick` re-emits `tick`, and the
finalize path touches only logs/boards/state -/

theorem appendSessionToMarkdown_fields (m : TimerManager) (cardId : Option String)
    (s e d : Nat) :
    (appendSessionToMarkdown m cardId s e d).state = m.state ∧
    (appendSessionToMarkdown m cardId s e d).logs = m.logs ∧
    (appendSessionToMarkdown m cardId s e d).pomodoroCount = m.pomodoroCount ∧
    (appendSessionToMarkdown m cardId s e d).shortBreakMs = m.shortBreakMs ∧
    (appendSessionToMarkdown m cardId s e d).longBreakMs = m.longBreakMs ∧
    (appendSessionToMarkdown m cardId s e d).longBreakInterval = m.longBreakInterval ∧
    (appendSessionToMarkdown m cardId s e d).breakDurationMs = m.breakDurationMs ∧
    (appendSessionToMarkdown m cardId s e d).autoRounds = m.autoRounds ∧
    (appendSessionToMarkdown m cardId s e d).currentAutoRound = m.currentAutoRound ∧
    (appendSessionToMarkdown m cardId s e d).currentSessionStart = m.currentSessionStart := by
  unfold appendSessionToMarkdown
  split_ifs
  · simp
  · rcases cardId with _ | cid <;> rcases hb : m.boards with _ | ⟨b, rest⟩ <;> simp

theorem stop_no_tick (m : TimerManager) (now : Nat) (ask : Bool) :
    Event.tick ∉ (stop m now ask).2 := by
  rcases hr : m.state.running
  · simp [stop, hr]
  · simp only [stop, stopTimer, finalizeSession, reset, hr]
    split_ifs <;> simp

theorem start_no_tick (m : TimerManager) (mode : TimerMode) (cardId : Option String)
    (now : Nat) : Event.tick ∉ (start m mode cardId now).2 := by
  unfold start
  split_ifs <;> simp

theorem completePomodoro_no_tick (m : TimerManager) (now : Nat) :
    Event.tick ∉ (completePomodoro m now).2 := by
  unfold completePomodoro
  simp [stop_no_tick, start_no_tick]

theorem checkAndStartNextRoundSync_no_tick (m : TimerManager) :
    Event.tick ∉ (checkAndStartNextRoundSync m).2 := by
  unfold checkAndStartNextRoundSync
  split_ifs <;> simp

/-- C8 counterexample: while the timer object exists but is not running, the
periodic `tick()` invocation emits nothing at all — in particular no `tick`
event — contradicting "independent of whether the timer is currently
running". -/
theorem tick_idle_counterexample :
    mIdleElapsed.state.running = false ∧ (tick mIdleElapsed 999000).2 = [] :=
  ⟨rfl, rfl⟩

/-- C8 (amended): each periodic `tick()` invocation emits the `tick` event
exactly once when the timer is running (first, regardless of any threshold
crossing), and emits nothing when it is not running — the method returns
early on a non-running timer. -/
theorem tick_emission_spec (m : TimerManager) (now : Nat) :
    (tick m now).2.head? = (if m.state.running then some Event.tick else none) ∧
    (tick m now).2.count Event.tick = (if m.state.running then 1 else 0) := by
  rcases hr : m.state.running with _ | _
  · simp [tick, hr]
  · unfold tick
    simp only [hr, Bool.true_eq_false, not_true_eq_false, Bool.not_true, if_true, if_false]
    constructor
    · simp
    · simp only [List.count_cons, List.count_append, beq_self_eq_true, if_true]
      have h1 : ∀ p : TimerManager × List Event,
          Event.tick ∉ p.2 → p.2.count Event.tick = 0 :=
        fun p hp => List.count_eq_zero.mpr hp
      split_ifs <;>
        simp [List.count_append, List.count_eq_zero.mpr (completePomodoro_no_tick _ _),
          List.count_eq_zero.mpr (stop_no_tick _ _ _),
          List.count_eq_zero.mpr (checkAndStartNextRoundSync_no_tick _)]

/-! ### Helper lemmas: `stop(false)` and `start` preserve the counters and
configured durations relevant to the long-break decision -/

theorem appendSession_pomodoroCount (m : TimerManager) (cardId : Option String) (s e d : Nat) :
    (appendSessionToMarkdown m cardId s e d).pomodoroCount = m.pomodoroCount :=
  (appendSessionToMarkdown_fields m cardId s e d).2.2.1

theorem appendSession_shortBreakMs (m : TimerManager) (cardId : Option String) (s e d : Nat) :
    (appendSessionToMarkdown m cardId s e d).shortBreakMs = m.shortBreakMs :=
  (appendSessionToMarkdown_fields m cardId s e d).2.2.2.1

theorem appendSession_longBreakMs (m : TimerManager) (cardId : Option String) (s e d : Nat) :
    (appendSessionToMarkdown m cardId s e d).longBreakMs = m.longBreakMs :=
  (appendSessionToMarkdown_fields m cardId s e d).2.2.2.2.1

theorem appendSession_longBreakInterval (m : TimerManager) (cardId : Option String) (s e d : Nat) :
    (appendSessionToMarkdown m cardId s e d).longBreakInterval = m.longBreakInterval :=
  (appendSessionToMarkdown_fields m cardId s e d).2.2.2.2.2.1

theorem appendSession_breakDurationMs (m : TimerManager) (cardId : Option String) (s e d : Nat) :
    (appendSessionToMarkdown m cardId s e d).breakDurationMs = m.breakDurationMs :=
  (appendSessionToMarkdown_fields m cardId s e d).2.2.2.2.2.2.1

theorem appendSession_autoRounds (m : TimerManager) (cardId : Option String) (s e d : Nat) :
    (appendSessionToMarkdown m cardId s e d).autoRounds = m.autoRounds :=
  (appendSessionToMarkdown_fields m cardId s e d).2.2.2.2.2.2.2.1

theorem appendSession_state (m : TimerManager) (cardId : Option String) (s e d : Nat) :
    (appendSessionToMarkdown m cardId s e d).state = m.state :=
  (appendSessionToMarkdown_fields m cardId s e d).1

theorem stop_false_preserves (m : TimerManager) (now : Nat) :
    (stop m now false).1.pomodoroCount = m.pomodoroCount ∧
    (stop m now false).1.shortBreakMs = m.shortBreakMs ∧
    (stop m now false).1.longBreakMs = m.longBreakMs ∧
    (stop m now false).1.longBreakInterval = m.longBreakInterval ∧
    (stop m now false).1.breakDurationMs = m.breakDurationMs ∧
    (stop m now false).1.state.running = false ∧
    (stop m now false).1.state.targetCardId = m.state.targetCardId := by
  rcases hr : m.state.running with _ | _
  · simp [stop, hr]
  · by_cases hshort : now - m.currentSessionStart < 60000 <;>
      by_cases hauto : m.autoRounds = 0 <;>
      simp [stop, stopTimer, finalizeSession, reset, hr, hshort, hauto,
        appendSession_pomodoroCount, appendSession_shortBreakMs, appendSession_longBreakMs,
        appendSession_longBreakInterval, appendSession_breakDurationMs,
        appendSession_autoRounds, appendSession_state]

theorem applyTimerSettingsForCard_breakDurationMs (m : TimerManager) (cardId : Option String) :
    (applyTimerSettingsForCard m cardId).breakDurationMs = m.breakDurationMs := by
  unfold applyTimerSettingsForCard
  rcases cardId with _ | cid
  · rfl
  · by_cases h : cid = "" <;> simp [h, updateSettings]

theorem applyTimerSettingsForCard_pomodoroCount (m : TimerManager) (cardId : Option String) :
    (applyTimerSettingsForCard m cardId).pomodoroCount = m.pomodoroCount := by
  unfold applyTimerSettingsForCard
  rcases cardId with _ | cid
  · rfl
  · by_cases h : cid = "" <;> simp [h, updateSettings]

theorem start_preserves_break_fields (m : TimerManager) (mode : TimerMode)
    (cardId : Option String) (now : Nat) :
    (start m mode cardId now).1.breakDurationMs = m.breakDurationMs ∧
    (start m mode cardId now).1.pomodoroCount = m.pomodoroCount := by
  simp only [start]
  split_ifs <;>
    simp_all [applyTimerSettingsForCard_breakDurationMs, applyTimerSettingsForCard_pomodoroCount]

/-- C9: when the K-th pomodoro auto-completes (`completePomodoro`, reached
from `tick`), `pomodoroCount` becomes `K = pomodoroCount + 1` and the break
that immediately starts (same target card) uses the long-break duration iff
`K mod longBreakInterval == 0`, otherwise the short-break duration. -/
theorem completePomodoro_cadence (m : TimerManager) (now : Nat)
    (hcard : strFalsy m.state.targetCardId = false) :
    (completePomodoro m now).1.pomodoroCount = m.pomodoroCount + 1 ∧
    (completePomodoro m now).1.breakDurationMs =
      (if ((m.pomodoroCount + 1 : Nat) : Int) % m.longBreakInterval = 0
       then m.longBreakMs else m.shortBreakMs) ∧
    (completePomodoro m now).1.state.mode = TimerMode.brk ∧
    (completePomodoro m now).1.state.running = true := by
  obtain ⟨hpc, hsb, hlb, hlbi, _, hrun2, htc⟩ := stop_false_preserves m now
  set p1 := (stop m now false).1 with hp1
  set M : TimerManager :=
    { p1 with
      pomodoroCount := p1.pomodoroCount + 1
      currentAutoRound := p1.currentAutoRound + 1
      breakDurationMs :=
        if ((p1.pomodoroCount + 1 : Nat) : Int) % p1.longBreakInterval = 0
        then p1.longBreakMs else p1.shortBreakMs } with hM
  have e1 : (completePomodoro m now).1 =
      (start M TimerMode.brk p1.state.targetCardId now).1 := rfl
  have hMcard : strFalsy (p1.state.targetCardId) = false := by rw [htc]; exact hcard
  have hMrun : M.state.running = false := hrun2
  have hs := start_run_core M TimerMode.brk p1.state.targetCardId now hMcard hMrun
  have hb := start_preserves_break_fields M TimerMode.brk p1.state.targetCardId now
  refine ⟨?_, ?_, ?_, ?_⟩
  · rw [e1, hb.2]
    show p1.pomodoroCount + 1 = m.pomodoroCount + 1
    rw [hpc]
  · rw [e1, hb.1]
    show (if ((p1.pomodoroCount + 1 : Nat) : Int) % p1.longBreakInterval = 0
          then p1.longBreakMs else p1.shortBreakMs) =
         (if ((m.pomodoroCount + 1 : Nat) : Int) % m.longBreakInterval = 0
          then m.longBreakMs else m.shortBreakMs)
    rw [hpc, hlbi, hlb, hsb]
  · rw [e1]; exact hs.2.1
  · rw [e1]; exact hs.1

/-- C9 witness: `completePomodoro_cadence` on the concrete running pomodoro
`mPomo` (fourth completion with interval 4, hence a long break). -/
theorem completePomodoro_cadence_witness :
    strFalsy mPomo.state.targetCardId = false ∧
    ((completePomodoro mPomo 1500000).1.pomodoroCount = mPomo.pomodoroCount + 1 ∧
     (completePomodoro mPomo 1500000).1.breakDurationMs =
       (if ((mPomo.pomodoroCount + 1 : Nat) : Int) % mPomo.longBreakInterval = 0
        then mPomo.longBreakMs else mPomo.shortBreakMs) ∧
     (completePomodoro mPomo 1500000).1.state.mode = TimerMode.brk ∧
     (completePomodoro mPomo 1500000).1.state.running = true) :=
  ⟨rfl, completePomodoro_cadence mPomo 1500000 rfl⟩

/-- C2 (code bug): switching cards with `toggle` while running logs the
session in memory and keeps the clock running on the new card with
`currentSessionStart = now` and unchanged durations — but the markdown line
is written only to the FIRST registered board, because `appendToBoard` can
never report "unchanged" (`Array.prototype.map` always returns a fresh
array) and the loop breaks after the first board.  Here card `A` lives on
the second board: the in-memory `FocusSession` for `A` is created, yet no
board content changes, so `A`'s document never receives the line. -/
theorem toggle_switch_first_board_only :
    mSecondBoard.state.running = true ∧
    mSecondBoard.state.targetCardId = some "A" ∧
    boardContains (oneCardBoard "L2" "A" "Card A") "A" = true ∧
    (toggle mSecondBoard TimerMode.stopwatch (some "B") 160000).1.logs =
      [{ cardId := some "A", cardTitle := some "Card A", mode := TimerMode.stopwatch,
         start := 100000, endMs := 160000, duration := 60000 }] ∧
    (toggle mSecondBoard TimerMode.stopwatch (some "B") 160000).1.boards =
      mSecondBoard.boards ∧
    (toggle mSecondBoard TimerMode.stopwatch (some "B") 160000).1.state.targetCardId =
      some "B" ∧
    (toggle mSecondBoard TimerMode.stopwatch (some "B") 160000).1.state.running = true ∧
    (toggle mSecondBoard TimerMode.stopwatch (some "B") 160000).1.state.mode =
      TimerMode.stopwatch ∧
    (toggle mSecondBoard TimerMode.stopwatch (some "B") 160000).1.currentSessionStart =
      160000 ∧
    (toggle mSecondBoard TimerMode.stopwatch (some "B") 160000).1.pomodoroDefault =
      mSecondBoard.pomodoroDefault ∧
    (toggle mSecondBoard TimerMode.stopwatch (some "B") 160000).1.breakDurationMs =
      mSecondBoard.breakDurationMs ∧
    (toggle mSecondBoard TimerMode.stopwatch (some "B") 160000).2 =
      [Event.log, Event.change] := by
  refine ⟨rfl, rfl, rfl, ?_, ?_, ?_, ?_, ?_, ?_, ?_, ?_, ?_⟩ <;> rfl

/-! ### Helper lemmas: duplicate suppression is an invariant of the parse -/

theorem processLine_noDupKeys {cid ctitle : String} {logs : List FocusSession} {ln : String}
    (h : noDupKeys logs) : noDupKeys (processLine cid ctitle logs ln) := by
  unfold processLine
  split
  · exact h
  · dsimp only
    by_cases ht : containsTomato ln <;>
      (simp only [ht, if_true, if_false, Bool.false_eq_true]
       split_ifs with h1 h2 h3) <;>
      first
        | exact h
        | (refine List.pairwise_append.mpr ⟨h, List.pairwise_singleton _ _, ?_⟩
           intro a ha b hb
           simp only [List.mem_singleton] at hb
           subst hb
           simp only [List.any_eq_true, Bool.and_eq_true, beq_iff_eq] at h3
           intro hcontra
           exact h3 ⟨a, ha, hcontra.1, hcontra.2⟩)

theorem foldl_processLine_noDupKeys (cid ctitle : String) :
    ∀ (lns : List String) (logs : List FocusSession),
      noDupKeys logs → noDupKeys (lns.foldl (processLine cid ctitle) logs)
  | [], _, h => h
  | _ :: lns, _, h =>
    foldl_processLine_noDupKeys cid ctitle lns _ (processLine_noDupKeys h)

mutual
theorem extractTree_noDupKeys : ∀ (t : CardTree) (logs : List FocusSession),
    noDupKeys logs → noDupKeys (extractTree logs t)
  | .node cid ctitle body ch, logs, h =>
    extractForest_noDupKeys ch _ (foldl_processLine_noDupKeys cid ctitle body logs h)
theorem extractForest_noDupKeys : ∀ (f : CardForest) (logs : List FocusSession),
    noDupKeys logs → noDupKeys (extractForest logs f)
  | .nil, _, h => h
  | .cons t ts, logs, h => extractForest_noDupKeys ts _ (extractTree_noDupKeys t logs h)
end

theorem lanesFold_noDupKeys : ∀ (ls : List Lane) (logs : List FocusSession),
    noDupKeys logs →
    noDupKeys (ls.foldl (fun acc l => extractForest acc l.children) logs)
  | [], _, h => h
  | l :: ls, logs, h => lanesFold_noDupKeys ls _ (extractForest_noDupKeys l.children logs h)

theorem parseLogsOfBoards_noDupKeys : ∀ (bs : List Board) (logs : List FocusSession),
    noDupKeys logs → noDupKeys (parseLogsOfBoards logs bs)
  | [], _, h => h
  | b :: bs, logs, h => parseLogsOfBoards_noDupKeys bs _ (lanesFold_noDupKeys b.lanes logs h)

theorem ensureMarkdownLogs_fix (m : TimerManager) (h1 : m.markdownParsed = true)
    (h2 : m.lastParsedSmCount = m.boards.length) : ensureMarkdownLogs m = m := by
  have hni : ¬(¬m.markdownParsed ∨ m.boards.length ≠ m.lastParsedSmCount) := by
    simp [h1, h2]
  unfold ensureMarkdownLogs
  rw [if_neg hni]

theorem ensureMarkdownLogs_cases (m : TimerManager) :
    ensureMarkdownLogs m = m ∨
    ensureMarkdownLogs m =
      { m with logs := parseLogsOfBoards [] m.boards, markdownParsed := true,
               lastParsedSmCount := m.boards.length } := by
  unfold ensureMarkdownLogs
  split
  · right; rfl
  · left; rfl

theorem forceReparseLogs_eq (m : TimerManager) :
    forceReparseLogs m =
      { m with logs := parseLogsOfBoards [] m.boards, markdownParsed := true,
               lastParsedSmCount := m.boards.length } := by
  unfold forceReparseLogs ensureMarkdownLogs
  split
  · rfl
  · rename_i hno
    simp at hno

/-- C6: over an unchanged board set, re-parsing is idempotent — a second
`ensureMarkdownLogs`, a repeated `forceReparseLogs`, an `ensureMarkdownLogs`
after a forced re-parse, and any `getTotalFocused` query all leave the
in-memory session set identical — and the parsed set never contains two
entries sharing the same `(start, cardId)` pair (the list is cleared before
re-parsing and every append is guarded by the duplicate check). -/
theorem reparse_idempotent_noDup (m : TimerManager) :
    (ensureMarkdownLogs (ensureMarkdownLogs m)).logs = (ensureMarkdownLogs m).logs ∧
    (forceReparseLogs (forceReparseLogs m)).logs = (forceReparseLogs m).logs ∧
    (ensureMarkdownLogs (forceReparseLogs m)).logs = (forceReparseLogs m).logs ∧
    (∀ cardId, (getTotalFocused (forceReparseLogs m) cardId).1.logs =
      (forceReparseLogs m).logs) ∧
    noDupKeys (forceReparseLogs m).logs := by
  have hensfix : ensureMarkdownLogs (forceReparseLogs m) = forceReparseLogs m := by
    refine ensureMarkdownLogs_fix _ ?_ ?_ <;> rw [forceReparseLogs_eq m]
  refine ⟨?_, ?_, ?_, ?_, ?_⟩
  · rcases ensureMarkdownLogs_cases m with he | he
    · rw [he, he]
    · rw [he, ensureMarkdownLogs_fix _ rfl rfl]
  · rw [forceReparseLogs_eq (forceReparseLogs m), forceReparseLogs_eq m]
  · rw [hensfix]
  · intro cardId
    rcases cardId with _ | cid <;> simp [getTotalFocused, hensfix]
  · rw [forceReparseLogs_eq m]
    exact parseLogsOfBoards_noDupKeys m.boards [] List.Pairwise.nil

/-- C7 counterexample: the line `++ 1970-01-02 10:00 – 10:25 (999 m)` states
999 minutes over a 25-minute span.  The parser accepts it (both timestamps
valid, end > start, stated duration > 0) and records `duration = 999 min`,
so a minute count arithmetically inconsistent with the start/end times is
NOT rejected. -/
theorem inconsistent_minutes_accepted_counterexample :
    processLine "A" "T" [] "++ 1970-01-02 10:00 – 10:25 (999 m)" =
      [{ cardId := some "A", cardTitle := some "T", mode := TimerMode.stopwatch,
         start := 122400000, endMs := 123900000, duration := 59940000 }] ∧
    (999 : Nat) ≠ (123900000 - 122400000) / 60000 ∧
    (59940000 : Nat) ≠ 123900000 - 122400000 :=
  ⟨rfl, by decide, by decide⟩

/-- Shape of `processLine`: the per-line processing either leaves the log
unchanged or appends exactly one session built from the parsed groups, and
an append happens only behind the validity, ordering, positivity and
duplicate guards. -/
theorem processLine_shape (cid ctitle : String) (logs : List FocusSession)
    (ln : String) :
    (processLine cid ctitle logs ln = logs ∨
      ∃ r : ParsedLine,
        parseLogLine (jsTrim ln.data) = some r ∧
        momentValid r.y r.mo r.d r.h1 r.mi1 = true ∧
        momentValid r.y r.mo r.d r.h2 r.mi2 = true ∧
        momentValueOf r.y r.mo r.d r.h2 r.mi2 > momentValueOf r.y r.mo r.d r.h1 r.mi1 ∧
        r.mins * 60000 > 0 ∧
        (∀ l ∈ logs, ¬(l.start = momentValueOf r.y r.mo r.d r.h1 r.mi1 ∧
          l.cardId = some cid)) ∧
        processLine cid ctitle logs ln =
          logs ++ [{ cardId := some cid, cardTitle := some ctitle,
                     mode := if containsTomato ln then TimerMode.pomodoro
                             else TimerMode.stopwatch,
                     start := momentValueOf r.y r.mo r.d r.h1 r.mi1,
                     endMs := momentValueOf r.y r.mo r.d r.h2 r.mi2,
                     duration := r.mins * 60000 }]) ∧
    (∀ rest : List String,
      (ln :: rest).foldl (processLine cid ctitle) logs =
        rest.foldl (processLine cid ctitle) (processLine cid ctitle logs ln)) := by
  constructor
  · rcases hp : parseLogLine (jsTrim ln.data) with _ | r
    · refine Or.inl ?_
      unfold processLine
      rw [hp]
    · by_cases hv : (momentValid r.y r.mo r.d r.h1 r.mi1 &&
          momentValid r.y r.mo r.d r.h2 r.mi2) = true
      · by_cases hd : (decide (r.mins * 60000 > 0) &&
            decide (momentValueOf r.y r.mo r.d r.h2 r.mi2 >
              momentValueOf r.y r.mo r.d r.h1 r.mi1)) = true
        · by_cases ha : (logs.any fun l =>
              l.start == momentValueOf r.y r.mo r.d r.h1 r.mi1 &&
                l.cardId == some cid) = true
          · refine Or.inl ?_
            unfold processLine
            rw [hp]
            dsimp only
            rw [if_pos hv, if_pos hd, if_pos ha]
          · refine Or.inr ⟨r, rfl, ?_, ?_, ?_, ?_, ?_, ?_⟩
            · exact ((Bool.and_eq_true _ _).mp hv).1
            · exact ((Bool.and_eq_true _ _).mp hv).2
            · exact of_decide_eq_true ((Bool.and_eq_true _ _).mp hd).2
            · exact of_decide_eq_true ((Bool.and_eq_true _ _).mp hd).1
            · intro l hl hcontra
              refine ha ?_
              simp only [List.any_eq_true, Bool.and_eq_true, beq_iff_eq]
              exact ⟨l, hl, hcontra.1, hcontra.2⟩
            · unfold processLine
              rw [hp]
              dsimp only
              rw [if_pos hv, if_pos hd, if_neg ha]
        · refine Or.inl ?_
          unfold processLine
          rw [hp]
          dsimp only
          rw [if_pos hv, if_neg hd]
      · refine Or.inl ?_
        unfold processLine
        rw [hp]
        dsimp only
        rw [if_neg hv]
  · intro rest
    rfl

/-- C7 (amended): a body line produces a `FocusSession` only if the line
matches the grammar, both timestamps parse as valid moments, `end > start`,
the stated duration is positive and the `(start, cardId)` pair is not already
present; every non-qualifying line leaves the log unchanged (silently
skipped), and the per-line fold continues with the remaining lines either
way.  No arithmetic-consistency check ties the stated minute count to the
start/end span. -/
theorem processLine_validation_spec (cid ctitle : String) (logs : List FocusSession)
    (ln : String) :
    (processLine cid ctitle logs ln = logs ∨
      ∃ r : ParsedLine,
        parseLogLine (jsTrim ln.data) = some r ∧
        momentValid r.y r.mo r.d r.h1 r.mi1 = true ∧
        momentValid r.y r.mo r.d r.h2 r.mi2 = true ∧
        momentValueOf r.y r.mo r.d r.h2 r.mi2 > momentValueOf r.y r.mo r.d r.h1 r.mi1 ∧
        r.mins * 60000 > 0 ∧
        (∀ l ∈ logs, ¬(l.start = momentValueOf r.y r.mo r.d r.h1 r.mi1 ∧
          l.cardId = some cid)) ∧
        processLine cid ctitle logs ln =
          logs ++ [{ cardId := some cid, cardTitle := some ctitle,
                     mode := if containsTomato ln then TimerMode.pomodoro
                             else TimerMode.stopwatch,
                     start := momentValueOf r.y r.mo r.d r.h1 r.mi1,
                     endMs := momentValueOf r.y r.mo r.d r.h2 r.mi2,
                     duration := r.mins * 60000 }]) ∧
    (∀ rest : List String,
      (ln :: rest).foldl (processLine cid ctitle) logs =
        rest.foldl (processLine cid ctitle) (processLine cid ctitle logs ln)) :=
  processLine_shape cid ctitle logs ln

/-- C10: every log line the finalizer writes begins with the `++` marker,
whatever the finalized session's mode was (the formatter receives only the
timestamps and duration); and every session recovered by log parsing carries
mode `pomodoro` (exactly when the line contains the tomato emoji) or
`stopwatch` — never `break`.  Consequently a break session written by the
finalizer reparses as a stopwatch session: the concrete third conjunct
round-trips a line and recovers mode `stopwatch`. -/
theorem log_line_mode_spec :
    (∀ st en du : Nat, (formatSessionLine st en du).data.take 2 = ['+', '+']) ∧
    (∀ (cid ctitle : String) (logs : List FocusSession) (ln : String) (s : FocusSession),
      processLine cid ctitle logs ln = logs ++ [s] →
      s.mode = (if containsTomato ln then TimerMode.pomodoro else TimerMode.stopwatch) ∧
      s.mode ≠ TimerMode.brk) ∧
    (processLine "A" "T" [] (formatSessionLine 7200000 9000000 1800000) =
      [{ cardId := some "A", cardTitle := some "T", mode := TimerMode.stopwatch,
         start := 7200000, endMs := 9000000, duration := 1800000 }]) := by
  refine ⟨fun st en du => rfl, ?_, rfl⟩
  intro cid ctitle logs ln s h
  have hs : s.mode = (if containsTomato ln then TimerMode.pomodoro else TimerMode.stopwatch) := by
    rcases processLine_shape cid ctitle logs ln |>.1 with he | ⟨r, _, _, _, _, _, _, heq⟩
    · rw [he] at h
      exact absurd h (by simp)
    · rw [heq] at h
      have := List.append_cancel_left h
      simp only [List.cons.injEq, and_true] at this
      rw [← this]
  refine ⟨hs, ?_⟩
  rw [hs]
  split_ifs <;> simp

/-- C10 witness: `log_line_mode_spec` applied to a concrete tomato-marked
line (recovered as pomodoro) — the hypothesis of the second conjunct is
discharged by evaluation. -/
theorem log_line_mode_spec_witness :
    processLine "A" "T" [] "🍅 1970-01-01 00:00 – 00:01 (1 m)" =
      [] ++ [{ cardId := some "A", cardTitle := some "T", mode := TimerMode.pomodoro,
               start := 0, endMs := 60000, duration := 60000 }] ∧
    (({ cardId := some "A", cardTitle := some "T", mode := TimerMode.pomodoro,
        start := 0, endMs := 60000, duration := 60000 } : FocusSession).mode =
      (if containsTomato "🍅 1970-01-01 00:00 – 00:01 (1 m)" then TimerMode.pomodoro
       else TimerMode.stopwatch) ∧
     ({ cardId := some "A", cardTitle := some "T", mode := TimerMode.pomodoro,
        start := 0, endMs := 60000, duration := 60000 } : FocusSession).mode ≠
       TimerMode.brk) :=
  ⟨rfl, log_line_mode_spec.2.1 "A" "T" []
    "🍅 1970-01-01 00:00 – 00:01 (1 m)"
    { cardId := some "A", cardTitle := some "T", mode := TimerMode.pomodoro,
      start := 0, endMs := 60000, duration := 60000 } rfl⟩

/-! ### Helper lemmas for C5: the parser inverts the formatter -/

theorem digitChar_spec (k : Nat) :
    isDigitCh (digitChar k) = true ∧ digitVal (digitChar k) = k % 10 := by
  have hk : k % 10 < 10 := Nat.mod_lt _ (by norm_num)
  unfold digitChar
  split <;> rename_i h
  all_goals try exact ⟨by decide, by rw [h]; decide⟩
  all_goals exact ⟨by decide, by
    rename_i h0 h1 h2 h3 h4 h5 h6 h7
    simp only [imp_false] at h0 h1 h2 h3 h4 h5 h6 h7 h
    have h9 : k % 10 = 9 := by omega
    rw [h9]; decide⟩

theorem jsWs_digitChar (k : Nat) : jsWs (digitChar k) = false := by
  unfold digitChar
  split <;> decide

theorem readDigits_pad2 (n : Nat) (rest : List Char) (h : n < 100) :
    readDigits 2 (pad2 n ++ rest) = some (n, rest) := by
  have h1 := digitChar_spec (n / 10)
  have h2 := digitChar_spec n
  simp only [pad2, List.cons_append, List.nil_append, readDigits, h1.1, h2.1, if_true,
    Option.map_some, Option.map]
  rw [h1.2, h2.2]
  have : n / 10 % 10 * 10 ^ 1 + (n % 10 * 10 ^ 0 + 0) = n := by omega
  rw [this]

theorem readDigits_pad4 (n : Nat) (rest : List Char) (h : n < 10000) :
    readDigits 4 (pad4 n ++ rest) = some (n, rest) := by
  have h1 := digitChar_spec (n / 1000)
  have h2 := digitChar_spec (n / 100)
  have h3 := digitChar_spec (n / 10)
  have h4 := digitChar_spec n
  simp only [pad4, List.cons_append, List.nil_append, readDigits, h1.1, h2.1, h3.1, h4.1,
    if_true, Option.map_some, Option.map]
  rw [h1.2, h2.2, h3.2, h4.2]
  have : n / 1000 % 10 * 10 ^ 3 +
      (n / 100 % 10 * 10 ^ 2 + (n / 10 % 10 * 10 ^ 1 + (n % 10 * 10 ^ 0 + 0))) = n := by
    omega
  rw [this]

theorem decDigitsAux_spec : ∀ (fuel n : Nat), n < fuel →
    decDigitsAux fuel n ≠ [] ∧
    (∀ c ∈ decDigitsAux fuel n, isDigitCh c = true) ∧
    readNat (decDigitsAux fuel n) = n
  | 0, n, h => absurd h (by omega)
  | fuel + 1, n, h => by
    unfold decDigitsAux
    split_ifs with hn
    · refine ⟨by simp, ?_, ?_⟩
      · intro c hc
        simp only [List.mem_singleton] at hc
        subst hc
        exact (digitChar_spec n).1
      · show readNat [digitChar n] = n
        simp [readNat, (digitChar_spec n).2]
        omega
    · have hrec : n / 10 < fuel := by omega
      obtain ⟨hne, hall, hval⟩ := decDigitsAux_spec fuel (n / 10) hrec
      refine ⟨by simp, ?_, ?_⟩
      · intro c hc
        rcases List.mem_append.mp hc with hc | hc
        · exact hall c hc
        · simp only [List.mem_singleton] at hc
          subst hc
          exact (digitChar_spec n).1
      · show readNat (decDigitsAux fuel (n / 10) ++ [digitChar n]) = n
        unfold readNat
        rw [List.foldl_append]
        have : List.foldl (fun a c => a * 10 + digitVal c) 0 (decDigitsAux fuel (n / 10)) =
            n / 10 := hval
        rw [this]
        simp [(digitChar_spec n).2]
        omega

theorem decDigits_spec (n : Nat) :
    decDigits n ≠ [] ∧ (∀ c ∈ decDigits n, isDigitCh c = true) ∧
    readNat (decDigits n) = n :=
  decDigitsAux_spec (n + 1) n (by omega)

theorem takeWhile_digits_append (l : List Char) (r : List Char)
    (hall : ∀ c ∈ l, isDigitCh c = true) (hr : isDigitCh ' ' = false) :
    (l ++ ' ' :: r).takeWhile isDigitCh = l ∧
    (l ++ ' ' :: r).dropWhile isDigitCh = ' ' :: r := by
  induction l with
  | nil => simp [List.takeWhile_cons, List.dropWhile_cons, hr]
  | cons c l ih =>
    have hc : isDigitCh c = true := hall c (List.mem_cons_self _ _)
    have hih := ih (fun x hx => hall x (List.mem_cons_of_mem _ hx))
    simp only [List.cons_append, List.takeWhile_cons, List.dropWhile_cons, hc, if_true]
    exact ⟨by rw [hih.1], hih.2⟩

theorem dropWhile_jsWs_pad2 (n : Nat) (r : List Char) :
    (pad2 n ++ r).dropWhile jsWs = pad2 n ++ r := by
  simp [pad2, List.dropWhile_cons, jsWs_digitChar]

theorem dropWhile_jsWs_pad4 (n : Nat) (r : List Char) :
    (pad4 n ++ r).dropWhile jsWs = pad4 n ++ r := by
  simp [pad4, List.dropWhile_cons, jsWs_digitChar]

theorem parseYmd_format (y mo d : Nat) (r : List Char)
    (hy : y < 10000) (hmo : mo < 100) (hd : d < 100) :
    parseYmd (pad4 y ++ ('-' :: (pad2 mo ++ ('-' :: (pad2 d ++ r))))) =
      some (y, mo, d, r) := by
  have hed : ∀ l : List Char, expectCh '-' ('-' :: l) = some l := fun l => rfl
  have h4 : ∀ s, readDigits 4 (pad4 y ++ s) = some (y, s) := fun s => readDigits_pad4 y s hy
  have hmo2 : ∀ s, readDigits 2 (pad2 mo ++ s) = some (mo, s) :=
    fun s => readDigits_pad2 mo s hmo
  have hd2 : ∀ s, readDigits 2 (pad2 d ++ s) = some (d, s) := fun s => readDigits_pad2 d s hd
  unfold parseYmd
  simp only [h4, hed, hmo2, hd2]

theorem parseHm_format (h mi : Nat) (r : List Char) (hh : h < 100) (hmi : mi < 100) :
    parseHm (pad2 h ++ (':' :: (pad2 mi ++ r))) = some (h, mi, r) := by
  have hec : ∀ l : List Char, expectCh ':' (':' :: l) = some l := fun l => rfl
  have hh2 : ∀ s, readDigits 2 (pad2 h ++ s) = some (h, s) := fun s => readDigits_pad2 h s hh
  have hmi2 : ∀ s, readDigits 2 (pad2 mi ++ s) = some (mi, s) :=
    fun s => readDigits_pad2 mi s hmi
  unfold parseHm
  simp only [hh2, hec, hmi2]

theorem skipDash_format (h2 : Nat) (r : List Char) :
    skipDash (' ' :: '–' :: ' ' :: (pad2 h2 ++ r)) = some (pad2 h2 ++ r) := by
  have hws : jsWs ' ' = true := rfl
  have hwd : jsWs '–' = false := rfl
  unfold skipDash
  simp only [List.dropWhile_cons, hws, hwd, if_true, Bool.false_eq_true, if_false,
    eq_self_iff_true, true_or, dropWhile_jsWs_pad2]

theorem parseMins_format (mins : Nat) (r : List Char) :
    parseMins ('(' :: (decDigits mins ++ ' ' :: 'm' :: r)) = some mins := by
  obtain ⟨hne, hall, hval⟩ := decDigits_spec mins
  obtain ⟨htake, hdrop⟩ := takeWhile_digits_append (decDigits mins) ('m' :: r) hall (by decide)
  have hep : ∀ l : List Char, expectCh '(' ('(' :: l) = some l := fun l => rfl
  have hem : ∀ l : List Char, expectCh 'm' ('m' :: l) = some l := fun l => rfl
  have hwm : ∀ l : List Char, ws1 (' ' :: l) = some (l.dropWhile jsWs) := fun l => rfl
  have hdm : List.dropWhile jsWs ('m' :: r) = 'm' :: r := rfl
  have hemp : (decDigits mins).isEmpty = false := by
    rcases hmm : decDigits mins with _ | ⟨c, cs⟩
    · exact absurd hmm hne
    · rfl
  unfold parseMins
  simp only [hep, htake, hdrop, hemp, Bool.false_eq_true, if_false, hwm, hdm, hem, hval]

theorem parseLogLine_format (y mo d h1 mi1 h2 mi2 mins : Nat)
    (hy : y < 10000) (hmo : mo < 100) (hd : d < 100)
    (hh1 : h1 < 100) (hmi1 : mi1 < 100) (hh2 : h2 < 100) (hmi2 : mi2 < 100) :
    parseLogLine ('+' :: '+' :: ' ' ::
      (pad4 y ++ '-' :: pad2 mo ++ '-' :: pad2 d ++
       ' ' :: pad2 h1 ++ ':' :: pad2 mi1 ++
       ' ' :: '–' :: ' ' :: pad2 h2 ++ ':' :: pad2 mi2 ++
       ' ' :: '(' :: (decDigits mins ++ [' ', 'm', ')']))) =
      some ⟨y, mo, d, h1, mi1, h2, mi2, mins⟩ := by
  have hb1 : ∀ l : List Char, skipBullet ('+' :: l) = some ('+' :: l) := fun l => rfl
  have hb2 : ∀ l : List Char, skipMarker ('+' :: '+' :: l) = some l := fun l => rfl
  have hw : ∀ l : List Char, ws1 (' ' :: l) = some (l.dropWhile jsWs) := fun l => rfl
  have hpar : ∀ l : List Char, List.dropWhile jsWs ('(' :: l) = '(' :: l := fun l => rfl
  have hymd : ∀ s, parseYmd (pad4 y ++ ('-' :: (pad2 mo ++ ('-' :: (pad2 d ++ s))))) =
      some (y, mo, d, s) := fun s => parseYmd_format y mo d s hy hmo hd
  have hhm1 : ∀ s, parseHm (pad2 h1 ++ (':' :: (pad2 mi1 ++ s))) = some (h1, mi1, s) :=
    fun s => parseHm_format h1 mi1 s hh1 hmi1
  have hhm2 : ∀ s, parseHm (pad2 h2 ++ (':' :: (pad2 mi2 ++ s))) = some (h2, mi2, s) :=
    fun s => parseHm_format h2 mi2 s hh2 hmi2
  have hdash : ∀ s, skipDash (' ' :: '–' :: ' ' :: (pad2 h2 ++ s)) = some (pad2 h2 ++ s) :=
    skipDash_format h2
  have hmins : ∀ s, parseMins ('(' :: (decDigits mins ++ ' ' :: 'm' :: s)) = some mins :=
    parseMins_format mins
  unfold parseLogLine
  simp only [List.cons_append, List.append_assoc, List.nil_append]
  simp only [hb1, hb2, hw, dropWhile_jsWs_pad4, dropWhile_jsWs_pad2, hpar,
    hymd, hhm1, hdash, hhm2, hmins]

theorem jsTrim_shape (l : List Char) :
    jsTrim ('+' :: (l ++ [')'])) = '+' :: (l ++ [')']) := by
  have h1 : jsWs '+' = false := rfl
  have h2 : jsWs ')' = false := rfl
  unfold jsTrim
  simp only [List.dropWhile_cons, h1, Bool.false_eq_true, if_false]
  have hrev : ('+' :: (l ++ [')'])).reverse = ')' :: (l.reverse ++ ['+']) := by simp
  rw [hrev]
  simp only [List.dropWhile_cons, h2, Bool.false_eq_true, if_false]
  simp

theorem daysInYear_ge (y : Nat) : 365 ≤ daysInYear y := by
  unfold daysInYear
  split <;> norm_num

theorem daysInMonth_le (y m : Nat) : daysInMonth y m ≤ 31 := by
  unfold daysInMonth
  split_ifs <;> norm_num

theorem daysInMonth_pos (y m : Nat) : 1 ≤ daysInMonth y m := by
  unfold daysInMonth
  split_ifs <;> norm_num

theorem daysOfYearRange_succ (y0 : Nat) : ∀ k, daysOfYearRange y0 (k + 1) =
    daysOfYearRange y0 k + daysInYear (y0 + k) := by
  intro k
  induction k generalizing y0 with
  | zero =>
    show daysInYear y0 + daysOfYearRange (y0 + 1) 0 = daysOfYearRange y0 0 + daysInYear (y0 + 0)
    simp [daysOfYearRange]
  | succ k ih =>
    show daysInYear y0 + daysOfYearRange (y0 + 1) (k + 1) =
      daysInYear y0 + daysOfYearRange (y0 + 1) k + daysInYear (y0 + (k + 1))
    rw [ih (y0 + 1)]
    have he : y0 + 1 + k = y0 + (k + 1) := by omega
    rw [he]
    omega

theorem daysOfMonthRange_succ (y m0 : Nat) : ∀ k, daysOfMonthRange y m0 (k + 1) =
    daysOfMonthRange y m0 k + daysInMonth y (m0 + k) := by
  intro k
  induction k generalizing m0 with
  | zero =>
    show daysInMonth y m0 + daysOfMonthRange y (m0 + 1) 0 =
      daysOfMonthRange y m0 0 + daysInMonth y (m0 + 0)
    simp [daysOfMonthRange]
  | succ k ih =>
    show daysInMonth y m0 + daysOfMonthRange y (m0 + 1) (k + 1) =
      daysInMonth y m0 + daysOfMonthRange y (m0 + 1) k + daysInMonth y (m0 + (k + 1))
    rw [ih (m0 + 1)]
    have he : m0 + 1 + k = m0 + (k + 1) := by omega
    rw [he]
    omega

theorem monthRange_year (y : Nat) : daysOfMonthRange y 1 12 = daysInYear y := by
  by_cases hl : isLeap y <;>
    simp [daysOfMonthRange, daysInMonth, daysInYear, hl]

theorem yearOfDaysAux_spec : ∀ (fuel y0 n : Nat), n < fuel →
    (yearOfDaysAux fuel y0 n).2 < daysInYear (yearOfDaysAux fuel y0 n).1 ∧
    y0 ≤ (yearOfDaysAux fuel y0 n).1 ∧
    daysOfYearRange y0 ((yearOfDaysAux fuel y0 n).1 - y0) + (yearOfDaysAux fuel y0 n).2 = n
  | 0, _, n, h => absurd h (by omega)
  | fuel + 1, y0, n, h => by
    have hge := daysInYear_ge y0
    unfold yearOfDaysAux
    split_ifs with hc
    · have hlt : n - daysInYear y0 < fuel := by omega
      obtain ⟨b1, b2, beq⟩ := yearOfDaysAux_spec fuel (y0 + 1) (n - daysInYear y0) hlt
      refine ⟨b1, by omega, ?_⟩
      set p := yearOfDaysAux fuel (y0 + 1) (n - daysInYear y0)
      have hk : p.1 - y0 = (p.1 - (y0 + 1)) + 1 := by omega
      rw [hk]
      simp only [daysOfYearRange]
      omega
    · refine ⟨?_, ?_, ?_⟩ <;> simp only [daysOfYearRange, Nat.sub_self] <;> omega

theorem monthOfDoyAux_spec (y : Nat) : ∀ (fuel m0 doy : Nat), 1 ≤ m0 → m0 + fuel = 13 →
    daysOfMonthRange y 1 (m0 - 1) + doy < daysInYear y →
    1 ≤ (monthOfDoyAux y fuel m0 doy).1 ∧
    (monthOfDoyAux y fuel m0 doy).1 ≤ 12 ∧
    (monthOfDoyAux y fuel m0 doy).2 < daysInMonth y (monthOfDoyAux y fuel m0 doy).1 ∧
    daysOfMonthRange y 1 ((monthOfDoyAux y fuel m0 doy).1 - 1) + (monthOfDoyAux y fuel m0 doy).2 =
      daysOfMonthRange y 1 (m0 - 1) + doy
  | 0, m0, doy, h1, hfuel, hbound => by
    have hm0 : m0 = 13 := by omega
    subst hm0
    rw [show (13 : Nat) - 1 = 12 from rfl, monthRange_year] at hbound
    omega
  | fuel + 1, m0, doy, h1, hfuel, hbound => by
    unfold monthOfDoyAux
    split_ifs with hc12 hcm
    · -- m0 = 12: return (12, doy)
      have hm0 : m0 = 12 := by omega
      subst hm0
      have h12 : daysOfMonthRange y 1 12 = daysOfMonthRange y 1 11 + daysInMonth y 12 := by
        have := daysOfMonthRange_succ y 1 11
        simpa using this
      rw [monthRange_year] at h12
      refine ⟨by omega, by omega, ?_, rfl⟩
      dsimp only
      have h11 : (12 : Nat) - 1 = 11 := rfl
      rw [h11] at hbound
      omega
    · -- daysInMonth y m0 ≤ doy: peel the month
      have hm1 : (m0 + 1) - 1 = m0 := by omega
      have hstep : daysOfMonthRange y 1 m0 =
          daysOfMonthRange y 1 (m0 - 1) + daysInMonth y m0 := by
        have hs := daysOfMonthRange_succ y 1 (m0 - 1)
        have he1 : (m0 - 1) + 1 = m0 := by omega
        have he2 : 1 + (m0 - 1) = m0 := by omega
        rw [he1, he2] at hs
        exact hs
      have hbound2 : daysOfMonthRange y 1 ((m0 + 1) - 1) + (doy - daysInMonth y m0) <
          daysInYear y := by
        rw [hm1, hstep]
        omega
      obtain ⟨b1, b2, b3, b4⟩ :=
        monthOfDoyAux_spec y fuel (m0 + 1) (doy - daysInMonth y m0) (by omega) (by omega) hbound2
      refine ⟨b1, b2, b3, ?_⟩
      rw [b4, hm1, hstep]
      omega
    · -- doy fits inside month m0
      exact ⟨by omega, by omega, by dsimp only; omega, rfl⟩

theorem civilOfDays_spec (n : Nat) :
    1 ≤ (civilOfDays n).2.1 ∧ (civilOfDays n).2.1 ≤ 12 ∧
    1 ≤ (civilOfDays n).2.2 ∧
    (civilOfDays n).2.2 ≤ daysInMonth (civilOfDays n).1 (civilOfDays n).2.1 ∧
    1970 ≤ (civilOfDays n).1 ∧
    daysOfCivil (civilOfDays n).1 (civilOfDays n).2.1 (civilOfDays n).2.2 = n := by
  obtain ⟨y1, y2, y3⟩ := yearOfDaysAux_spec (n + 1) 1970 n (by omega)
  have hm0 : daysOfMonthRange (yearOfDaysAux (n + 1) 1970 n).1 1 0 +
      (yearOfDaysAux (n + 1) 1970 n).2 < daysInYear (yearOfDaysAux (n + 1) 1970 n).1 := by
    simp only [daysOfMonthRange]
    omega
  obtain ⟨m1, m2, m3, m4⟩ :=
    monthOfDoyAux_spec (yearOfDaysAux (n + 1) 1970 n).1 12 1
      (yearOfDaysAux (n + 1) 1970 n).2 (by omega) (by omega)
      (by simpa using hm0)
  have hciv : civilOfDays n =
      ((yearOfDaysAux (n + 1) 1970 n).1,
       (monthOfDoyAux (yearOfDaysAux (n + 1) 1970 n).1 12 1 (yearOfDaysAux (n + 1) 1970 n).2).1,
       (monthOfDoyAux (yearOfDaysAux (n + 1) 1970 n).1 12 1 (yearOfDaysAux (n + 1) 1970 n).2).2 + 1) :=
    rfl
  rw [hciv]
  dsimp only
  refine ⟨m1, m2, by omega, by omega, y2, ?_⟩
  unfold daysOfCivil daysBeforeYear daysBeforeMonth
  simp only [Nat.add_sub_cancel]
  simp only [daysOfMonthRange] at m4
  omega

/-- C5 counterexample: the log-line format keeps only minute precision.  The
session `start = 30000` (00:00:30), `end = 150000` (00:02:30),
`duration = 120000` has valid `start < end`, but formatting and reparsing
yields `start = 0 ≠ 30000` (and `end = 120000 ≠ 150000`): the round trip does
NOT preserve `start` and `end` exactly for sub-minute timestamps. -/
theorem roundtrip_truncates_counterexample :
    (30000 : Nat) < 150000 ∧
    formatSessionLine 30000 150000 120000 = "++ 1970-01-01 00:00 – 00:02 (2 m)" ∧
    processLine "A" "T" [] (formatSessionLine 30000 150000 120000) =
      [{ cardId := some "A", cardTitle := some "T", mode := TimerMode.stopwatch,
         start := 0, endMs := 120000, duration := 120000 }] ∧
    (0 : Nat) ≠ 30000 ∧ (120000 : Nat) ≠ 150000 :=
  ⟨by decide, rfl, rfl, by decide, by decide⟩

/-- C5 (amended): for sessions whose `start` and `end` are exact minute
boundaries on the same civil day (year at most 9999) with `start < end` and
`duration ≥ 30 s`, formatting to a log line and reparsing that line yields a
session with the same `start`, the same `end`, and the duration rounded to
whole minutes — within half a minute of the original (and exactly equal
whenever the duration is a whole number of minutes).  The hypotheses are
forced: sub-minute offsets of `start`/`end` are truncated by the `HH:mm`
format, a midnight-crossing session reuses the start date for the end time
and is rejected or mis-dated, a stated duration that rounds to `0 m` fails
the `duration > 0` guard, and a five-digit year breaks the `\d{4}` match. -/
theorem format_parse_roundtrip (cid ctitle : String) (st en du : Nat)
    (hst : st % 60000 = 0) (hen : en % 60000 = 0) (hlt : st < en)
    (hday : st / 86400000 = en / 86400000)
    (hy : (civilOfDays (st / 86400000)).1 < 10000)
    (hdu : 30000 ≤ du) :
    ∃ s : FocusSession,
      processLine cid ctitle [] (formatSessionLine st en du) = [s] ∧
      s.start = st ∧ s.endMs = en ∧
      s.duration = ((du + 30000) / 60000) * 60000 ∧
      s.duration ≤ du + 30000 ∧ du ≤ s.duration + 30000 := by
  obtain ⟨hmo1, hmo12, hd1, hdle, hy1970, hcivil⟩ := civilOfDays_spec (st / 86400000)
  set c := civilOfDays (st / 86400000) with hc
  have hdata : (formatSessionLine st en du).data =
      '+' :: '+' :: ' ' ::
        (pad4 c.1 ++ '-' :: pad2 c.2.1 ++ '-' :: pad2 c.2.2 ++
         ' ' :: pad2 (st % 86400000 / 3600000) ++ ':' :: pad2 (st % 3600000 / 60000) ++
         ' ' :: '–' :: ' ' ::
         pad2 (en % 86400000 / 3600000) ++ ':' :: pad2 (en % 3600000 / 60000) ++
         ' ' :: '(' :: (decDigits ((du + 30000) / 60000) ++ [' ', 'm', ')'])) := rfl
  have hshape : '+' :: '+' :: ' ' ::
      (pad4 c.1 ++ '-' :: pad2 c.2.1 ++ '-' :: pad2 c.2.2 ++
       ' ' :: pad2 (st % 86400000 / 3600000) ++ ':' :: pad2 (st % 3600000 / 60000) ++
       ' ' :: '–' :: ' ' ::
       pad2 (en % 86400000 / 3600000) ++ ':' :: pad2 (en % 3600000 / 60000) ++
       ' ' :: '(' :: (decDigits ((du + 30000) / 60000) ++ [' ', 'm', ')'])) =
      '+' :: (('+' :: ' ' ::
        (pad4 c.1 ++ '-' :: pad2 c.2.1 ++ '-' :: pad2 c.2.2 ++
         ' ' :: pad2 (st % 86400000 / 3600000) ++ ':' :: pad2 (st % 3600000 / 60000) ++
         ' ' :: '–' :: ' ' ::
         pad2 (en % 86400000 / 3600000) ++ ':' :: pad2 (en % 3600000 / 60000) ++
         ' ' :: '(' :: (decDigits ((du + 30000) / 60000) ++ [' ', 'm']))) ++ [')']) := by
    simp [List.cons_append, List.append_assoc]
  have htrim : jsTrim (formatSessionLine st en du).data = (formatSessionLine st en du).data := by
    rw [hdata, hshape, jsTrim_shape, ← hshape]
  have hmoB : c.2.1 < 100 := by omega
  have hdB : c.2.2 < 100 := by
    have := daysInMonth_le c.1 c.2.1
    omega
  have hh1B : st % 86400000 / 3600000 < 100 := by omega
  have hmi1B : st % 3600000 / 60000 < 100 := by omega
  have hh2B : en % 86400000 / 3600000 < 100 := by omega
  have hmi2B : en % 3600000 / 60000 < 100 := by omega
  have hparse : parseLogLine (jsTrim (formatSessionLine st en du).data) =
      some ⟨c.1, c.2.1, c.2.2, st % 86400000 / 3600000, st % 3600000 / 60000,
            en % 86400000 / 3600000, en % 3600000 / 60000, (du + 30000) / 60000⟩ := by
    rw [htrim, hdata]
    exact parseLogLine_format c.1 c.2.1 c.2.2 _ _ _ _ _ hy hmoB hdB hh1B hmi1B hh2B hmi2B
  have hstart : momentValueOf c.1 c.2.1 c.2.2
      (st % 86400000 / 3600000) (st % 3600000 / 60000) = st := by
    unfold momentValueOf
    rw [hcivil]
    omega
  have hend : momentValueOf c.1 c.2.1 c.2.2
      (en % 86400000 / 3600000) (en % 3600000 / 60000) = en := by
    unfold momentValueOf
    rw [hcivil, hday]
    omega
  have hv1 : momentValid c.1 c.2.1 c.2.2
      (st % 86400000 / 3600000) (st % 3600000 / 60000) = true := by
    unfold momentValid
    simp only [Bool.and_eq_true, Bool.or_eq_true, decide_eq_true_eq, beq_iff_eq]
    omega
  have hv2 : momentValid c.1 c.2.1 c.2.2
      (en % 86400000 / 3600000) (en % 3600000 / 60000) = true := by
    unfold momentValid
    simp only [Bool.and_eq_true, Bool.or_eq_true, decide_eq_true_eq, beq_iff_eq]
    omega
  have hcond : (decide (((du + 30000) / 60000) * 60000 > 0) && decide (en > st)) = true := by
    simp only [Bool.and_eq_true, decide_eq_true_eq]
    constructor <;> omega
  refine ⟨{ cardId := some cid, cardTitle := some ctitle,
            mode := if containsTomato (formatSessionLine st en du) then TimerMode.pomodoro
                    else TimerMode.stopwatch,
            start := st, endMs := en, duration := ((du + 30000) / 60000) * 60000 },
          ?_, rfl, rfl, rfl,
          by show ((du + 30000) / 60000) * 60000 ≤ du + 30000; omega,
          by show du ≤ ((du + 30000) / 60000) * 60000 + 30000; omega⟩
  unfold processLine
  rw [hparse]
  simp only [hv1, hv2, Bool.and_self, if_true, hstart, hend]
  rw [hcond]
  simp

/-- C5 witness: `format_parse_roundtrip` on the concrete session
01:00–03:00 minutes into the epoch (2 minutes), hypotheses discharged by
evaluation. -/
theorem format_parse_roundtrip_witness :
    ((60000 : Nat) % 60000 = 0 ∧ (180000 : Nat) % 60000 = 0 ∧ (60000 : Nat) < 180000 ∧
     (60000 : Nat) / 86400000 = 180000 / 86400000 ∧
     (civilOfDays (60000 / 86400000)).1 < 10000 ∧ (30000 : Nat) ≤ 120000) ∧
    (∃ s : FocusSession,
      processLine "A" "T" [] (formatSessionLine 60000 180000 120000) = [s] ∧
      s.start = 60000 ∧ s.endMs = 180000 ∧
      s.duration = ((120000 + 30000) / 60000) * 60000 ∧
      s.duration ≤ 120000 + 30000 ∧ 120000 ≤ s.duration + 30000) :=
  ⟨⟨rfl, rfl, by decide, rfl, by decide, by decide⟩,
   format_parse_roundtrip "A" "T" 60000 180000 120000 rfl rfl (by decide) rfl
     (by decide) (by decide)⟩
